import Mathlib

/-!
Verification of the compiler pipeline in `src/services/compiler.ts`
(class `CompilerService`): lexical analysis, recursive-descent parsing,
semantic analysis, three-address IR generation, peephole optimization and
pseudo-assembly generation.

The TypeScript source is shallowly embedded: every phase becomes a total
Lean function translated statement-by-statement from the source.  JavaScript
peculiarities that the source relies on are modelled explicitly:

* a `switch` with duplicate `case` labels runs the FIRST matching case;
  later duplicate cases are dead code and are noted in comments where they
  occur in the source;
* `${x}` string interpolation renders `undefined` as `"undefined"`
  (`jsTemplate`), while `Array.prototype.join` renders `undefined` as `""`
  (`jsJoinPart`);
* `if (x)` on a string tests truthiness: `undefined` and `""` are falsy
  (`jsTruthy`);
* reading a property of `undefined` throws a `TypeError`; such paths are
  modelled with an explicit error value carrying the V8-style message;
* `Number(s)` returns NaN (modelled as `none`) for non-numeric strings, and
  `0` for empty/whitespace-only strings (`jsNumber`); finite values are
  modelled as rationals (no claim exercises `NaN`/`Infinity` arithmetic);
* `parseInt(s)` parses a leading run of decimal digits (`jsParseInt`);
* loops that may fail to terminate (the parser's class-member loops) are
  modelled with a fuel parameter; exhausting fuel yields a distinguished
  result used only to reason about divergence.

Whitespace (`\s`, `trim`) is modelled by the six ASCII whitespace
characters, which agrees with JavaScript on all ASCII input.
-/

/-! ## JavaScript string / number modelling -/

/-- The six ASCII characters matched by the JavaScript `\s` class and
trimmed by `String.prototype.trim` (Unicode space classes are not needed:
all claim inputs are ASCII). -/
def isWSChar (c : Char) : Bool :=
  c = ' ' || c = '\t' || c = '\n' || c = '\r' || c = '\x0b' || c = '\x0c'

/-- `/[a-zA-Z_]/.test c` -/
def isAlphaU (c : Char) : Bool :=
  ('a' ≤ c && c ≤ 'z') || ('A' ≤ c && c ≤ 'Z') || c = '_'

/-- `/[0-9]/.test c` -/
def isDigitC (c : Char) : Bool :=
  '0' ≤ c && c ≤ '9'

/-- `/[a-zA-Z0-9_]/.test c` -/
def isAlnumU (c : Char) : Bool :=
  isAlphaU c || isDigitC c

/-- `/[0-9.]/.test c` -/
def isNumC (c : Char) : Bool :=
  isDigitC c || c = '.'

/-- `String.prototype.trim` (ASCII whitespace). -/
def jsTrim (s : String) : String :=
  String.mk (((s.data.dropWhile isWSChar).reverse.dropWhile isWSChar).reverse)

/-- Template interpolation `${x}` of a `string | undefined` value. -/
def jsTemplate (o : Option String) : String :=
  match o with
  | some s => s
  | none => "undefined"

/-- `Array.prototype.join` element rendering: `undefined` becomes `""`. -/
def jsJoinPart (o : Option String) : String :=
  match o with
  | some s => s
  | none => ""

/-- JS truthiness of a `string | undefined` value: `undefined` and `""`
are falsy. -/
def jsTruthy (o : Option String) : Bool :=
  match o with
  | some s => s ≠ ""
  | none => false

/-- `a || b` on `string | undefined` values (JS returns `b` when `a` is
falsy). -/
def jsOrElse (o : Option String) (dflt : String) : String :=
  if jsTruthy o then o.getD dflt else dflt

/-- `String.prototype.startsWith`. -/
def jsStartsWith (s pre : String) : Bool :=
  pre.data.isPrefixOf s.data

/-- `String.prototype.endsWith`. -/
def jsEndsWith (s suf : String) : Bool :=
  suf.data.isSuffixOf s.data

/-- Does `pat` occur as a contiguous sublist? -/
def listInfix (pat : List Char) : List Char → Bool
  | [] => pat.isPrefixOf []
  | c :: rest => pat.isPrefixOf (c :: rest) || listInfix pat rest

/-- `String.prototype.includes`. -/
def jsIncludes (s pat : String) : Bool :=
  listInfix pat.data s.data

/-- Decimal digits of a natural number, most significant first.  The fuel
argument keeps the recursion structural; `n + 1` steps always suffice. -/
def natChars : Nat → Nat → List Char
  | 0, _ => []
  | fuel + 1, n =>
    if n < 10 then [Char.ofNat (48 + n)]
    else natChars fuel (n / 10) ++ [Char.ofNat (48 + n % 10)]

/-- Decimal rendering of a natural number, as JS renders a nonnegative
integer. -/
def natRepr (n : Nat) : String :=
  String.mk (natChars (n + 1) n)

/-- Numeric value of a list of decimal digit characters. -/
def digitsVal (cs : List Char) : Nat :=
  cs.foldl (fun a c => a * 10 + (c.toNat - 48)) 0

/-- `parseInt(s)` restricted to its uses in the source (base-10, no sign):
the value of the longest leading digit run, `none` for NaN. -/
def jsParseInt (s : String) : Option Nat :=
  let ds := s.data.takeWhile isDigitC
  if ds = [] then none else some (digitsVal ds)

/-- A finite JS number value as an exact fraction (`den = 0` encodes the
`Infinity` / `-Infinity` / `NaN` results of dividing by zero, which only
matter for rendering).  Mathlib's `Rat` is avoided because its arithmetic
does not reduce in the kernel. -/
structure JsNum where
  num : Int
  den : Nat
deriving DecidableEq, Repr

def jsAdd (x y : JsNum) : JsNum :=
  { num := x.num * y.den + y.num * x.den, den := x.den * y.den }

def jsSub (x y : JsNum) : JsNum :=
  { num := x.num * y.den - y.num * x.den, den := x.den * y.den }

def jsMul (x y : JsNum) : JsNum :=
  { num := x.num * y.num, den := x.den * y.den }

def jsDiv (x y : JsNum) : JsNum :=
  if y.num = 0 then { num := x.num, den := 0 }
  else { num := x.num * y.den * (if y.num < 0 then -1 else 1),
         den := x.den * y.num.natAbs }

/-- JS rendering `${v}` / `String(v)` of a number value: integers print
without a decimal point; `den = 0` renders the division-by-zero specials.
(Non-integral finite values are rendered as a fraction; no claim and no
lexer-producible program reaches that case with the toy optimizer.) -/
def jsNumToString (q : JsNum) : String :=
  if q.den = 0 then
    (if q.num > 0 then "Infinity" else if q.num < 0 then "-Infinity" else "NaN")
  else if q.num % (q.den : Int) = 0 then
    (let v := q.num / (q.den : Int)
     if v < 0 then "-" ++ natRepr v.natAbs else natRepr v.natAbs)
  else
    (if q.num < 0 then "-" ++ natRepr q.num.natAbs else natRepr q.num.natAbs)
      ++ "/" ++ natRepr q.den

/-- Helper for `jsNumber`: value of `[digits].[digits]` with optional
fractional part. -/
def numOfParts (sign : Bool) (intPart fracPart : List Char) : JsNum :=
  { num := (if sign then -1 else 1) *
      ((digitsVal intPart : Int) * ((10 : Int) ^ fracPart.length) + (digitsVal fracPart : Int)),
    den := 10 ^ fracPart.length }

/-- `Number(s)` on the operand strings the optimizer can meet: optional
sign, then digits with at most one decimal point; empty / all-whitespace
input is `0`; anything else is NaN (`none`).  (`Infinity`, exponents and
hex literals cannot reach these call sites: the lexer's number tokens are
runs of `[0-9.]` and every other operand is an identifier or temp name,
which is NaN here as in JS.) -/
def jsNumber (s : String) : Option JsNum :=
  let t := (s.data.dropWhile isWSChar).reverse.dropWhile isWSChar |>.reverse
  if t = [] then some { num := 0, den := 1 }
  else
    let (sign, body) :=
      match t with
      | '-' :: rest => (true, rest)
      | '+' :: rest => (false, rest)
      | _ => (false, t)
    let intPart := body.takeWhile isDigitC
    let rest1 := body.drop intPart.length
    match rest1 with
    | [] => if intPart = [] then none else some (numOfParts sign intPart [])
    | '.' :: rest2 =>
      let fracPart := rest2.takeWhile isDigitC
      if rest2.drop fracPart.length ≠ [] then none
      else if intPart = [] && fracPart = [] then none
      else some (numOfParts sign intPart fracPart)
    | _ => none

/-- `!isNaN(Number(s))` -/
def jsIsNumeric (s : String) : Bool :=
  (jsNumber s).isSome

/-- Core of `String.prototype.split` for a nonempty separator: leftmost,
non-overlapping matches.  Fuel is one unit per consumed character; the
callers always supply enough. -/
def splitOnCore (sep : List Char) : Nat → List Char → List Char → List (List Char)
  | 0, _, acc => [acc]
  | _ + 1, [], acc => [acc]
  | fuel + 1, c :: rest, acc =>
    if sep.isPrefixOf (c :: rest) then
      acc :: splitOnCore sep fuel ((c :: rest).drop sep.length) []
    else
      splitOnCore sep fuel rest (acc ++ [c])

/-- `s.split(sep)` for a nonempty separator. -/
def jsSplit (s sep : String) : List String :=
  (splitOnCore sep.data (s.data.length + 1) s.data []).map String.mk

/-! ## Data model (`Token`, `CompilerError`, `ASTNode`, `SymbolTableEntry`) -/

/-- `interface Token` -/
structure Token where
  type : String
  value : String
  line : Nat
  column : Nat
deriving DecidableEq, Repr

/-- `class CompilerError` (message, phase, optional position). -/
structure CompilerError where
  message : String
  phase : String
  line : Option Nat := none
  column : Option Nat := none
deriving DecidableEq, Repr

/-- `interface ASTNode`.  `value` is optional as in the source; a node the
source creates without a `children` field is modelled with `children = []`
(the two are distinguishable in JS only on `TypeError` paths that no claim
exercises). -/
inductive ASTNode where
  | mk (type : String) (value : Option String) (children : List ASTNode)
deriving Repr

def ASTNode.type : ASTNode → String
  | .mk t _ _ => t

def ASTNode.value : ASTNode → Option String
  | .mk _ v _ => v

def ASTNode.children : ASTNode → List ASTNode
  | .mk _ _ cs => cs

/-- `interface SymbolTableEntry` -/
structure SymbolTableEntry where
  type : String
  parameters : Option (List String) := none
  returnType : Option String := none
  declarationType : Option String := none
  dataType : Option String := none
  initialized : Option Bool := none
deriving DecidableEq, Repr

/-! ## Lexer (`CompilerService.lexicalAnalysis`) -/

/-- The reserved-word set of the lexer. -/
def keywords : List String :=
  ["let", "const", "var", "if", "else", "while", "for", "function",
   "return", "class", "extends", "new", "this", "super", "console"]

/-- The lexer's operator/punctuation set. -/
def lexOperators : List String :=
  ["+", "-", "*", "/", "=>", "=", "<", ">", "!", "&", "|",
   "(", ")", "\x7b", "\x7d", "[", "]", ";", ",", ".",
   "+=", "-=", "*=", "/=", "==", "===", "!=", "!==", ">=", "<="]

/-- The single-character members of `lexOperators`, as characters: the test
`operators.has(char)` on a one-character string is equivalent to membership
here. -/
def opChars : List Char :=
  ['+', '-', '*', '/', '=', '<', '>', '!', '&', '|',
   '(', ')', Char.ofNat 123, Char.ofNat 125, '[', ']', ';', ',', '.']

/-- The character scan loop of `lexicalAnalysis`.  One fuel unit is spent
per iteration and every iteration consumes at least one character, so
`cs.length` fuel always suffices (`lexRun_complete`).  `column` is the
value of the mutable `column` variable before the `column++` at the top of
the iteration. -/
def lexRun : Nat → List Char → Nat → Nat → List Token
  | 0, _, _, _ => []
  | _ + 1, [], _, _ => []
  | fuel + 1, c :: rest, line, column =>
    let col := column + 1
    if isWSChar c then
      if c = '\n' then lexRun fuel rest (line + 1) 0
      else lexRun fuel rest line col
    else if isAlphaU c then
      let run := rest.takeWhile isAlnumU
      let ident := String.mk (c :: run)
      { type := if keywords.contains ident then "keyword" else "identifier",
        value := ident, line := line, column := col }
        :: lexRun fuel (rest.dropWhile isAlnumU) line (col + run.length)
    else if isDigitC c then
      let run := rest.takeWhile isNumC
      { type := "number", value := String.mk (c :: run),
        line := line, column := col }
        :: lexRun fuel (rest.dropWhile isNumC) line (col + run.length)
    else if c = '"' || c = Char.ofNat 39 then  -- double or single quote
      let run := rest.takeWhile (fun d => d ≠ c)
      { type := "string", value := String.mk run, line := line, column := col }
        :: lexRun fuel ((rest.dropWhile (fun d => d ≠ c)).drop 1) line (col + run.length)
    else if opChars.contains c then
      match rest with
      | n :: rest2 =>
        if lexOperators.contains (String.mk [c, n]) then
          { type := "operator", value := String.mk [c, n],
            line := line, column := col + 1 }
            :: lexRun fuel rest2 line (col + 1)
        else
          { type := "operator", value := String.mk [c],
            line := line, column := col }
            :: lexRun fuel rest line col
      | [] =>
        [{ type := "operator", value := String.mk [c],
           line := line, column := col }]
    else
      -- unrecognized characters are silently skipped
      lexRun fuel rest line col

/-- `CompilerService.validateInput` -/
def validateInput (sourceCode : String) : Except CompilerError Unit :=
  if jsTrim sourceCode = "" then
    .error { message := "Source code cannot be empty", phase := "validation" }
  else .ok ()

/-- `CompilerService.lexicalAnalysis`.  The `try`/`catch` wrapper in the
source can never fire (the loop body throws nothing), so the success path
is exact. -/
def lexicalAnalysis (sourceCode : String) : Except CompilerError (List Token) :=
  match validateInput sourceCode with
  | .error e => .error e
  | .ok _ => .ok (lexRun sourceCode.data.length sourceCode.data 1 0)

/-! ## Parser (`CompilerService.syntaxAnalysis`)

Every throw site inside `syntaxAnalysis` constructs its `CompilerError`
with the literal phase `"syntax"`; the embedding factors that literal into
the wrapper `syntaxAnalysis`, so a parser error value carries only message
and position.  `PErr.typeError` models a raw JavaScript `TypeError` from an
unguarded property access on `undefined` (caught and re-wrapped by the
`try`/`catch` in the source).  `PErr.fuelOut` marks exhaustion of the fuel
that makes the mutual recursion structural; it corresponds to no program
behaviour and is used only to reason about non-termination of the source's
loops. -/

inductive PErr where
  | cerr (message : String) (line : Option Nat) (column : Option Nat)
  | typeError (msg : String)
  | fuelOut
deriving DecidableEq, Repr

/-- `tokens[i]` -/
def tok? (tokens : List Token) (i : Nat) : Option Token :=
  tokens.get? i

/-- `tokens[i]?.value === s` -/
def valIs (tokens : List Token) (i : Nat) (s : String) : Bool :=
  match tok? tokens i with
  | some t => t.value = s
  | none => false

/-- `tokens[i]?.type === s` -/
def typeIs (tokens : List Token) (i : Nat) (s : String) : Bool :=
  match tok? tokens i with
  | some t => t.type = s
  | none => false

/-- `tokens[i].value` at call sites where a preceding guard ensures the
index is in range (the default is unreachable there). -/
def tokValD (tokens : List Token) (i : Nat) : String :=
  match tok? tokens i with
  | some t => t.value
  | none => ""

/-- `tokens[i]` at call sites where the source reads property `prop` of a
possibly-`undefined` element, which throws a `TypeError` in JS. -/
def mustTok (tokens : List Token) (i : Nat) (prop : String) : Except PErr Token :=
  match tok? tokens i with
  | some t => .ok t
  | none => .error (.typeError ("Cannot read properties of undefined (reading \x27" ++ prop ++ "\x27)"))

/-- The parser's `isOperator` list (distinct from the lexer's set). -/
def parserOperators : List String :=
  ["+", "-", "*", "/", "<", ">", "<=", ">=", "=", "==", "===",
   "!=", "!==", "+=", "-=", "*=", "/=", "=>"]

/-- `function isOperator(value)` -/
def isOperator (value : String) : Bool :=
  parserOperators.contains value

/-- `isOperator(tokens[i]?.value)`: `undefined` is in no operator list. -/
def isOperatorOpt (o : Option String) : Bool :=
  match o with
  | some v => isOperator v
  | none => false

/-- The inner `while (... value === ";") current++` loops. -/
def skipSemis (tokens : List Token) : Nat → Nat → Nat
  | 0, cur => cur
  | fuel + 1, cur =>
    match tok? tokens cur with
    | some t => if t.value = ";" then skipSemis tokens fuel (cur + 1) else cur
    | none => cur

mutual

/-- `while (current < tokens.length) { program.children.push(parseStatement()) }` -/
def parseProgramLoop (tokens : List Token) :
    Nat → Nat → List ASTNode → Except PErr (List ASTNode × Nat)
  | 0, _, _ => .error .fuelOut
  | fuel + 1, cur, acc =>
    if cur < tokens.length then do
      let (st, cur1) ← parseStatement tokens fuel cur
      parseProgramLoop tokens fuel cur1 (acc ++ [st])
    else .ok (acc, cur)

termination_by structural fuel cur acc => fuel

/-- Parameter-list loop shared verbatim by `parseMethod` and the two
function-declaration sites:
`while (current < length && value !== ")") { if identifier push Parameter; current++; if "," current++ }` -/
def parseParamsLoop (tokens : List Token) :
    Nat → Nat → List ASTNode → Except PErr (List ASTNode × Nat)
  | 0, _, _ => .error .fuelOut
  | fuel + 1, cur, acc =>
    match tok? tokens cur with
    | none => .ok (acc, cur)
    | some t =>
      if t.value ≠ ")" then
        let acc1 := if t.type = "identifier" then acc ++ [ASTNode.mk "Parameter" (some t.value) []] else acc
        let cur1 := cur + 1
        let cur2 := if valIs tokens cur1 "," then cur1 + 1 else cur1
        parseParamsLoop tokens fuel cur2 acc1
      else .ok (acc, cur)

termination_by structural fuel cur acc => fuel

/-- `parseMethod(methodName)` -/
def parseMethod (tokens : List Token) (methodName : String) :
    Nat → Nat → Except PErr (ASTNode × Nat)
  | 0, _ => .error .fuelOut
  | fuel + 1, cur => do
    let (params, cur1) ←
      if valIs tokens cur "(" then do
        let (ps, c) ← parseParamsLoop tokens fuel (cur + 1) []
        if valIs tokens c ")" then pure (ps, c + 1)
        else .error (.cerr "Expected closing parenthesis" none none)
      else pure ([], cur)
    if valIs tokens cur1 "\x7b" then do
      let (blk, cur2) ← parseBlock tokens fuel cur1
      .ok (ASTNode.mk "MethodDeclaration" (some methodName) (params ++ [blk]), cur2)
    else .error (.cerr "Expected method body" none none)

termination_by structural fuel cur => fuel

/-- `parseBlock` -/
def parseBlock (tokens : List Token) : Nat → Nat → Except PErr (ASTNode × Nat)
  | 0, _ => .error .fuelOut
  | fuel + 1, cur =>
    if valIs tokens cur "\x7b" then do
      let (children, cur1) ← parseBlockLoop tokens fuel (cur + 1) []
      if valIs tokens cur1 "\x7d" then .ok (ASTNode.mk "Block" none children, cur1 + 1)
      else .error (.cerr "Expected closing brace" none none)
    else .error (.cerr "Expected opening brace" none none)

termination_by structural fuel cur => fuel

/-- Body loop of `parseBlock`.  After the semicolon-skipping inner loop the
source reads `tokens[current].value` without a guard, so a block whose
remaining tokens are all semicolons raises a `TypeError`. -/
def parseBlockLoop (tokens : List Token) :
    Nat → Nat → List ASTNode → Except PErr (List ASTNode × Nat)
  | 0, _, _ => .error .fuelOut
  | fuel + 1, cur, acc =>
    match tok? tokens cur with
    | none => .ok (acc, cur)
    | some t =>
      if t.value ≠ "\x7d" then do
        let cur1 := skipSemis tokens fuel cur
        let t1 ← mustTok tokens cur1 "value"
        if t1.value = "\x7d" then .ok (acc, cur1)
        else do
          let (st, cur2) ← parseStatement tokens fuel cur1
          let cur3 := if valIs tokens cur2 ";" then cur2 + 1 else cur2
          parseBlockLoop tokens fuel cur3 (acc ++ [st])
      else .ok (acc, cur)

termination_by structural fuel cur acc => fuel

/-- `parseStatement`.  The duplicate `class` case at line 247 of the source
is unreachable (the first `class` case always returns or throws) and is
omitted. -/
def parseStatement (tokens : List Token) : Nat → Nat → Except PErr (ASTNode × Nat)
  | 0, _ => .error .fuelOut
  | fuel + 1, cur => do
    let token ← mustTok tokens cur "type"
    if token.type = "keyword" && token.value = "class" then
      -- class declaration (source lines 98-146)
      let cur1 := cur + 1
      if typeIs tokens cur1 "identifier" then
        let name := tokValD tokens cur1
        let cur2 := cur1 + 1
        if valIs tokens cur2 "\x7b" then do
          let (members, cur3) ← classMembersLoopStmt tokens fuel (cur2 + 1) []
          if valIs tokens cur3 "\x7d" then
            .ok (ASTNode.mk "ClassDeclaration" (some name) members, cur3 + 1)
          else .error (.cerr "Expected closing brace for class" (some token.line) (some token.column))
        else .error (.cerr "Expected opening brace for class" (some token.line) (some token.column))
      else .error (.cerr "Expected class name" (some token.line) (some token.column))
    else if token.type = "keyword" &&
        (token.value = "const" || token.value = "let" || token.value = "var") then
      -- first variable-declaration block (source lines 149-175); when the
      -- next token is not an identifier it falls through to the rest of
      -- parseStatement with `current` already advanced past the keyword
      let cur1 := cur + 1
      if typeIs tokens cur1 "identifier" then do
        let ident := ASTNode.mk "Identifier" (some (tokValD tokens cur1)) []
        let cur2 := cur1 + 1
        let (children, cur3) ←
          if valIs tokens cur2 "=" then do
            let (e, c) ← parseExpression tokens fuel (cur2 + 1)
            pure ([ident, e], c)
          else pure ([ident], cur2)
        let cur4 := if valIs tokens cur3 ";" then cur3 + 1 else cur3
        .ok (ASTNode.mk "VariableDeclaration" (some token.value) children, cur4)
      else parseStatementRest tokens token fuel cur1
    else parseStatementRest tokens token fuel cur

termination_by structural fuel cur => fuel

/-- Class-member loop of the statement-level `class` case (source lines
117-134).  A member token that is neither `;`, `constructor`, an
identifier nor `}` is not consumed, so the loop never terminates. -/
def classMembersLoopStmt (tokens : List Token) :
    Nat → Nat → List ASTNode → Except PErr (List ASTNode × Nat)
  | 0, _, _ => .error .fuelOut
  | fuel + 1, cur, acc =>
    match tok? tokens cur with
    | none => .ok (acc, cur)
    | some t =>
      if t.value ≠ "\x7d" then do
        let cur1 := skipSemis tokens fuel cur
        if valIs tokens cur1 "constructor" then do
          let (m, cur2) ← parseMethod tokens "constructor" fuel (cur1 + 1)
          classMembersLoopStmt tokens fuel cur2 (acc ++ [m])
        else if typeIs tokens cur1 "identifier" then do
          let mname := tokValD tokens cur1
          let (m, cur2) ← parseMethod tokens mname fuel (cur1 + 1)
          classMembersLoopStmt tokens fuel cur2 (acc ++ [m])
        else classMembersLoopStmt tokens fuel cur1 acc
      else .ok (acc, cur)

termination_by structural fuel cur acc => fuel

/-- Class-member loop of the primary-level `class` case (source lines
906-918): same as the statement-level loop but without semicolon
skipping. -/
def classMembersLoopPrim (tokens : List Token) :
    Nat → Nat → List ASTNode → Except PErr (List ASTNode × Nat)
  | 0, _, _ => .error .fuelOut
  | fuel + 1, cur, acc =>
    match tok? tokens cur with
    | none => .ok (acc, cur)
    | some t =>
      if t.value ≠ "\x7d" then
        if t.value = "constructor" then do
          let (m, cur2) ← parseMethod tokens "constructor" fuel (cur + 1)
          classMembersLoopPrim tokens fuel cur2 (acc ++ [m])
        else if t.type = "identifier" then do
          let (m, cur2) ← parseMethod tokens t.value fuel (cur + 1)
          classMembersLoopPrim tokens fuel cur2 (acc ++ [m])
        else classMembersLoopPrim tokens fuel cur acc
      else .ok (acc, cur)

termination_by structural fuel cur acc => fuel

/-- `parseStatement` after the class and first variable-declaration
blocks; `token` is the token read at entry to `parseStatement`. -/
def parseStatementRest (tokens : List Token) (token : Token) :
    Nat → Nat → Except PErr (ASTNode × Nat)
  | 0, _ => .error .fuelOut
  | fuel + 1, cur => do
    if token.type = "identifier" then
      -- expression statement / dot method call (source lines 179-211)
      let (left, c1) ← parseExpression tokens fuel cur
      if valIs tokens c1 "." then
        let c2 := c1 + 1
        if typeIs tokens c2 "identifier" then
          let methodName := tokValD tokens c2
          let c3 := c2 + 1
          if valIs tokens c3 "(" then do
            let (args, c4) ← parseArgsLoop tokens ")" fuel (c3 + 1) []
            if valIs tokens c4 ")" then
              .ok (ASTNode.mk "MethodCall" (some methodName) (left :: args), c4 + 1)
            else .ok (left, c4)
          else .ok (left, c3)
        else .ok (left, c2)
      else .ok (left, c1)
    else if token.type = "keyword" && token.value = "new" then
      parseNewExpr tokens token fuel (cur + 1)
    else if token.value = "[" then
      -- array literal (source lines 294-317); its missing-bracket error
      -- carries no position
      let (elements, c1) ← parseArgsLoop tokens "]" fuel (cur + 1) []
      if valIs tokens c1 "]" then
        .ok (ASTNode.mk "ArrayLiteral" none elements, c1 + 1)
      else .error (.cerr "Expected closing bracket for array" none none)
    else if token.value = "." then
      -- dot method call / arrow function (source lines 320-342); when the
      -- token after the dot is not an identifier control falls through with
      -- `current` advanced past the dot
      let c1 := cur + 1
      if typeIs tokens c1 "identifier" then
        let methodName := tokValD tokens c1
        let c2 := c1 + 1
        if valIs tokens c2 "=>" then do
          let (e, c3) ← parseExpression tokens fuel (c2 + 1)
          .ok (ASTNode.mk "ArrowFunction" (some methodName) [e], c3)
        else .ok (ASTNode.mk "MethodCall" (some methodName) [], c2)
      else parseStatementRest2 tokens token fuel c1
    else parseStatementRest2 tokens token fuel cur

termination_by structural fuel cur => fuel

/-- `parseStatement` from the function-declaration block on (source lines
345-489). -/
def parseStatementRest2 (tokens : List Token) (token : Token) :
    Nat → Nat → Except PErr (ASTNode × Nat)
  | 0, _ => .error .fuelOut
  | fuel + 1, cur => do
    if token.type = "keyword" && token.value = "function" then
      let cur1 := cur + 1
      if typeIs tokens cur1 "identifier" then
        let fname := tokValD tokens cur1
        let cur2 := cur1 + 1
        let (params, cur3) ←
          if valIs tokens cur2 "(" then do
            let (ps, c) ← parseParamsLoop tokens fuel (cur2 + 1) []
            if valIs tokens c ")" then pure (ps, c + 1)
            else .error (.cerr "Expected closing parenthesis" none none)
          else pure ([], cur2)
        if valIs tokens cur3 "\x7b" then do
          let (blk, cur4) ← parseBlock tokens fuel cur3
          .ok (ASTNode.mk "FunctionDeclaration" (some fname) (params ++ [blk]), cur4)
        else .error (.cerr "Expected function body" none none)
      else .error (.cerr "Expected function name" none none)
    else if token.type = "keyword" && token.value = "if" then
      let cur1 := cur + 1
      if valIs tokens cur1 "(" then do
        let (cond, cur2) ← parseExpression tokens fuel (cur1 + 1)
        if valIs tokens cur2 ")" then do
          let (thn, cur3) ← parseBlock tokens fuel (cur2 + 1)
          if typeIs tokens cur3 "keyword" && valIs tokens cur3 "else" then do
            let (els, cur4) ← parseBlock tokens fuel (cur3 + 1)
            .ok (ASTNode.mk "IfStatement" none [cond, thn, els], cur4)
          else .ok (ASTNode.mk "IfStatement" none [cond, thn], cur3)
        else .error (.cerr "Expected closing parenthesis" none none)
      else .error (.cerr "Expected opening parenthesis after if" none none)
    else if token.type = "keyword" &&
        (token.value = "let" || token.value = "const" || token.value = "var") then
      -- second variable-declaration block (source lines 431-466); reached
      -- only after the first one fell through, advancing `current` again
      let cur1 := cur + 1
      if typeIs tokens cur1 "identifier" then do
        let ident := ASTNode.mk "Identifier" (some (tokValD tokens cur1)) []
        let cur2 := cur1 + 1
        let (children, cur3) ←
          if valIs tokens cur2 "=" then do
            let (e, c) ← parseExpression tokens fuel (cur2 + 1)
            pure ([ident, e], c)
          else pure ([ident], cur2)
        let cur4 := if valIs tokens cur3 ";" then cur3 + 1 else cur3
        .ok (ASTNode.mk "VariableDeclaration" (some token.value) children, cur4)
      else .error (.cerr "Expected identifier after variable declaration" none none)
    else if token.type = "keyword" && token.value = "return" then
      let cur1 := cur + 1
      let (children, cur2) ←
        match tok? tokens cur1 with
        | some t =>
          if t.value ≠ ";" then do
            let (e, c) ← parseExpression tokens fuel cur1
            pure ([e], c)
          else pure ([], cur1)
        | none => pure (([] : List ASTNode), cur1)
      let cur3 := if valIs tokens cur2 ";" then cur2 + 1 else cur2
      .ok (ASTNode.mk "ReturnStatement" none children, cur3)
    else
      parseExpression tokens fuel cur

termination_by structural fuel cur => fuel

/-- The `new` expression tail, identical at source lines 213-245 and
846-878; `token` is the `new` keyword token (used for error positions). -/
def parseNewExpr (tokens : List Token) (token : Token) :
    Nat → Nat → Except PErr (ASTNode × Nat)
  | 0, _ => .error .fuelOut
  | fuel + 1, cur => do
    if typeIs tokens cur "identifier" then
      let className := tokValD tokens cur
      let cur1 := cur + 1
      if valIs tokens cur1 "(" then do
        let (args, cur2) ← parseArgsLoop tokens ")" fuel (cur1 + 1) []
        if valIs tokens cur2 ")" then
          .ok (ASTNode.mk "NewExpression" (some className) args, cur2 + 1)
        else .error (.cerr "Expected constructor call" (some token.line) (some token.column))
      else .error (.cerr "Expected constructor call" (some token.line) (some token.column))
    else .error (.cerr "Expected class name after new keyword" (some token.line) (some token.column))

termination_by structural fuel cur => fuel

/-- Argument/element loop
`while (current < length && value !== term) { args.push(parseExpression()); if "," current++ }`
shared by function calls, `new` arguments and array literals. -/
def parseArgsLoop (tokens : List Token) (term : String) :
    Nat → Nat → List ASTNode → Except PErr (List ASTNode × Nat)
  | 0, _, _ => .error .fuelOut
  | fuel + 1, cur, acc =>
    match tok? tokens cur with
    | none => .ok (acc, cur)
    | some t =>
      if t.value ≠ term then do
        let (e, c1) ← parseExpression tokens fuel cur
        let c2 := if valIs tokens c1 "," then c1 + 1 else c1
        parseArgsLoop tokens term fuel c2 (acc ++ [e])
      else .ok (acc, cur)

termination_by structural fuel cur acc => fuel

/-- `parseExpression` -/
def parseExpression (tokens : List Token) : Nat → Nat → Except PErr (ASTNode × Nat)
  | 0, _ => .error .fuelOut
  | fuel + 1, cur => do
    let (left, c1) ← parsePrimary tokens fuel cur
    let (left2, c2) ← parseExpLoop tokens fuel c1 left
    let (left3, c3) ← parseExpLoop2 tokens fuel c2 left2
    -- trailing member expression (source lines 613-627)
    if valIs tokens c3 "." then
      let c4 := c3 + 1
      match tok? tokens c4 with
      | some right =>
        if right.type = "identifier" then
          .ok (ASTNode.mk "MemberExpression" (some ".")
                [left3, ASTNode.mk "Identifier" (some right.value) []], c4 + 1)
        else .error (.cerr "Expected identifier after dot" none none)
      | none => .error (.cerr "Expected identifier after dot" none none)
    else .ok (left3, c3)

termination_by structural fuel cur => fuel

/-- First `while (current < tokens.length)` loop of `parseExpression`
(source lines 531-600).  When the dot handling partially matches it falls
through to the operator step with `current` already advanced. -/
def parseExpLoop (tokens : List Token) :
    Nat → Nat → ASTNode → Except PErr (ASTNode × Nat)
  | 0, _, _ => .error .fuelOut
  | fuel + 1, cur, left =>
    if cur < tokens.length then
      if valIs tokens cur "." then
        let c1 := cur + 1
        if typeIs tokens c1 "identifier" then
          let methodName := tokValD tokens c1
          let c2 := c1 + 1
          if valIs tokens c2 "(" then do
            -- `startToken` is the token before the first argument,
            -- i.e. the opening parenthesis
            let startToken ← mustTok tokens c2 "line"
            let (args, c3) ← parseArgsArrowLoop tokens fuel (c2 + 1) []
            if valIs tokens c3 ")" then
              parseExpLoop tokens fuel (c3 + 1)
                (ASTNode.mk "MethodCall" (some methodName) (left :: args))
            else .error (.cerr "Expected closing parenthesis"
              (some startToken.line) (some startToken.column))
          else parseExpOpStep tokens fuel c2 left
        else parseExpOpStep tokens fuel c1 left
      else parseExpOpStep tokens fuel cur left
    else .ok (left, cur)

termination_by structural fuel cur acc => fuel

/-- Operator handling and `break` at the end of the first
`parseExpression` loop (source lines 587-599). -/
def parseExpOpStep (tokens : List Token) :
    Nat → Nat → ASTNode → Except PErr (ASTNode × Nat)
  | 0, _, _ => .error .fuelOut
  | fuel + 1, cur, left =>
    if isOperatorOpt ((tok? tokens cur).map Token.value) then do
      let op := tokValD tokens cur
      let (right, c1) ← parsePrimary tokens fuel (cur + 1)
      parseExpLoop tokens fuel c1 (ASTNode.mk "BinaryExpression" (some op) [left, right])
    else .ok (left, cur)

termination_by structural fuel cur acc => fuel

/-- Method-call argument loop with two-token arrow-function lookahead
(source lines 543-564). -/
def parseArgsArrowLoop (tokens : List Token) :
    Nat → Nat → List ASTNode → Except PErr (List ASTNode × Nat)
  | 0, _, _ => .error .fuelOut
  | fuel + 1, cur, acc =>
    match tok? tokens cur with
    | none => .ok (acc, cur)
    | some t =>
      if t.value ≠ ")" then do
        let (arg, c1) ←
          if t.type = "identifier" && valIs tokens (cur + 1) "=>" then do
            let (body, c) ← parseExpression tokens fuel (cur + 2)
            pure (ASTNode.mk "ArrowFunction" (some t.value) [body], c)
          else parseExpression tokens fuel cur
        let c2 := if valIs tokens c1 "," then c1 + 1 else c1
        parseArgsArrowLoop tokens fuel c2 (acc ++ [arg])
      else .ok (acc, cur)

termination_by structural fuel cur acc => fuel

/-- Second operator loop of `parseExpression` (source lines 602-611). -/
def parseExpLoop2 (tokens : List Token) :
    Nat → Nat → ASTNode → Except PErr (ASTNode × Nat)
  | 0, _, _ => .error .fuelOut
  | fuel + 1, cur, left =>
    match tok? tokens cur with
    | none => .ok (left, cur)
    | some t =>
      if isOperator t.value then do
        let (right, c1) ← parsePrimary tokens fuel (cur + 1)
        parseExpLoop2 tokens fuel c1
          (ASTNode.mk "BinaryExpression" (some t.value) [left, right])
      else .ok (left, cur)

termination_by structural fuel cur acc => fuel

/-- Object-literal property loop (source lines 758-779).  A non-identifier
token other than `}` is never consumed, so the loop spins; `token` is the
`{` token (for error positions). -/
def objectPropsLoop (tokens : List Token) (token : Token) :
    Nat → Nat → List ASTNode → Except PErr (List ASTNode × Nat)
  | 0, _, _ => .error .fuelOut
  | fuel + 1, cur, acc =>
    match tok? tokens cur with
    | none => .ok (acc, cur)
    | some t =>
      if t.value ≠ "\x7d" then
        if t.type = "identifier" then do
          let cur1 := cur + 1
          if valIs tokens cur1 ":" then do
            let (v, cur2) ← parseExpression tokens fuel (cur1 + 1)
            let prop := ASTNode.mk "Property" (some t.value) [v]
            let cur3 := if valIs tokens cur2 "," then cur2 + 1 else cur2
            objectPropsLoop tokens token fuel cur3 (acc ++ [prop])
          else .error (.cerr "Expected \x27:\x27 after object key" (some token.line) (some token.column))
        else objectPropsLoop tokens token fuel cur acc
      else .ok (acc, cur)

termination_by structural fuel cur acc => fuel

/-- Dot-method argument loop of `parsePrimary` (source lines 1032-1054):
an `=>` token pops the last argument and returns early from
`parsePrimary`; `.inl` is that early result, `.inr` the normal loop
exit. -/
def parseDotArgsLoop (tokens : List Token) (methodName : String) :
    Nat → Nat → List ASTNode → Except PErr (Sum (ASTNode × Nat) (List ASTNode × Nat))
  | 0, _, _ => .error .fuelOut
  | fuel + 1, cur, acc =>
    match tok? tokens cur with
    | none => .ok (.inr (acc, cur))
    | some t =>
      if t.value ≠ ")" then
        if t.value = "=>" then do
          let param := acc.getLast?
          let (body, c1) ← parseExpression tokens fuel (cur + 1)
          .ok (.inl (ASTNode.mk "MethodCall" (some methodName)
            [ASTNode.mk "ArrowFunction" (param.bind ASTNode.value) [body]], c1))
        else do
          let (e, c1) ← parseExpression tokens fuel cur
          let c2 := if valIs tokens c1 "," then c1 + 1 else c1
          parseDotArgsLoop tokens methodName fuel c2 (acc ++ [e])
      else .ok (.inr (acc, cur))

termination_by structural fuel cur acc => fuel

/-- `parsePrimary`.  The source's duplicate branches at lines 797 (arrow),
819/943 (identifier), 824 (semicolon) and 978 (number) are unreachable —
an earlier branch with the same condition always returns first — and are
omitted. -/
def parsePrimary (tokens : List Token) : Nat → Nat → Except PErr (ASTNode × Nat)
  | 0, _ => .error .fuelOut
  | fuel + 1, cur => do
    let token ← mustTok tokens cur "type"
    if token.type = "keyword" && token.value = "function" then
      -- function expression (source lines 660-713)
      let cur1 := cur + 1
      if typeIs tokens cur1 "identifier" then
        let fname := tokValD tokens cur1
        let cur2 := cur1 + 1
        let (params, cur3) ←
          if valIs tokens cur2 "(" then do
            let (ps, c) ← parseParamsLoop tokens fuel (cur2 + 1) []
            if valIs tokens c ")" then pure (ps, c + 1)
            else .error (.cerr "Expected closing parenthesis" none none)
          else pure ([], cur2)
        if valIs tokens cur3 "\x7b" then do
          let (blk, cur4) ← parseBlock tokens fuel cur3
          .ok (ASTNode.mk "FunctionDeclaration" (some fname) (params ++ [blk]), cur4)
        else do
          -- implicit single-statement body
          let (st, cur4) ← parseStatement tokens fuel cur3
          .ok (ASTNode.mk "FunctionDeclaration" (some fname)
            (params ++ [ASTNode.mk "Block" none [st]]), cur4)
      else .error (.cerr "Expected function name" none none)
    else if token.type = "identifier" then
      -- function call or plain identifier (source lines 716-748)
      let cur1 := cur + 1
      if valIs tokens cur1 "(" then do
        let (args, cur2) ← parseArgsLoop tokens ")" fuel (cur1 + 1) []
        if valIs tokens cur2 ")" then
          .ok (ASTNode.mk "FunctionCall" (some token.value) args, cur2 + 1)
        else .error (.cerr "Expected closing parenthesis in function call"
          (some token.line) (some token.column))
      else .ok (ASTNode.mk "Identifier" (some token.value) [], cur1)
    else if token.value = "\x7b" then
      -- object literal or block (source lines 751-794)
      if typeIs tokens (cur + 1) "identifier" && valIs tokens (cur + 2) ":" then do
        let (props, c1) ← objectPropsLoop tokens token fuel (cur + 1) []
        if valIs tokens c1 "\x7d" then
          .ok (ASTNode.mk "ObjectLiteral" none props, c1 + 1)
        else .error (.cerr "Expected closing brace for object" (some token.line) (some token.column))
      else parseBlock tokens fuel cur
    else if token.value = ";" then
      .ok (ASTNode.mk "EmptyStatement" none [], cur + 1)
    else if token.type = "number" then
      .ok (ASTNode.mk "NumberLiteral" (some token.value) [], cur + 1)
    else if token.type = "keyword" && token.value = "this" then
      .ok (ASTNode.mk "ThisExpression" (some "this") [], cur + 1)
    else if token.type = "keyword" && token.value = "new" then
      parseNewExpr tokens token fuel (cur + 1)
    else if token.type = "keyword" && token.value = "class" then
      -- class expression (source lines 880-940)
      let cur1 := cur + 1
      if typeIs tokens cur1 "identifier" then
        let name := tokValD tokens cur1
        let cur2 := cur1 + 1
        if valIs tokens cur2 "\x7b" then do
          let (members, cur3) ← classMembersLoopPrim tokens fuel (cur2 + 1) []
          if valIs tokens cur3 "\x7d" then
            .ok (ASTNode.mk "ClassDeclaration" (some name) members, cur3 + 1)
          else .error (.cerr "Expected closing brace for class" (some token.line) (some token.column))
        else .error (.cerr "Expected opening brace for class" (some token.line) (some token.column))
      else .error (.cerr "Expected class name" (some token.line) (some token.column))
    else if token.value = "(" then
      let (e, c1) ← parseExpression tokens fuel (cur + 1)
      match tok? tokens c1 with
      | some t =>
        if t.value = ")" then .ok (e, c1 + 1)
        else .error (.cerr "Expected closing parenthesis" none none)
      | none => .error (.cerr "Expected closing parenthesis" none none)
    else if token.value = "[" then
      let (elements, c1) ← parseArgsLoop tokens "]" fuel (cur + 1) []
      if valIs tokens c1 "]" then
        .ok (ASTNode.mk "ArrayLiteral" none elements, c1 + 1)
      else .error (.cerr "Expected closing bracket for array" (some token.line) (some token.column))
    else if token.value = "." then
      -- dot method call (source lines 1021-1073); on a partial match
      -- control falls through to the unexpected-token throw below
      let c1 := cur + 1
      if typeIs tokens c1 "identifier" then
        let methodName := tokValD tokens c1
        let c2 := c1 + 1
        if valIs tokens c2 "(" then do
          let r ← parseDotArgsLoop tokens methodName fuel (c2 + 1) []
          match r with
          | .inl earlyResult => .ok earlyResult
          | .inr (args, c3) =>
            if valIs tokens c3 ")" then
              .ok (ASTNode.mk "MethodCall" (some methodName) args, c3 + 1)
            else .error (.cerr "Expected closing parenthesis" (some token.line) (some token.column))
        else .error (.cerr ("Unexpected token: " ++ token.value) (some token.line) (some token.column))
      else .error (.cerr ("Unexpected token: " ++ token.value) (some token.line) (some token.column))
    else
      .error (.cerr ("Unexpected token: " ++ token.value) (some token.line) (some token.column))

termination_by structural fuel cur => fuel

end

/-- `parseProgram` -/
def parseProgram (tokens : List Token) : Nat → Nat → Except PErr (ASTNode × Nat)
  | 0, _ => .error .fuelOut
  | fuel + 1, cur => do
    let (children, cur1) ← parseProgramLoop tokens fuel cur []
    .ok (ASTNode.mk "Program" none children, cur1)

/-- Fuel passed by `syntaxAnalysis`; generous, since fuel exhaustion on a
terminating input merely weakens a concrete theorem (and on diverging
inputs every fuel value is exhausted). -/
def bigFuel (tokens : List Token) : Nat :=
  64 * (tokens.length + 4)

/-- `CompilerService.syntaxAnalysis`: `none` models non-termination of the
parser (every throw site in the source carries phase `"syntax"`, and the
`catch` wraps non-`CompilerError` exceptions the same way). -/
def syntaxAnalysis (tokens : List Token) : Option (Except CompilerError ASTNode) :=
  if tokens.length = 0 then
    some (.error { message := "No tokens to parse", phase := "syntax" })
  else
    match parseProgram tokens (bigFuel tokens) 0 with
    | .ok (p, _) => some (.ok p)
    | .error (.cerr m l c) => some (.error { message := m, phase := "syntax", line := l, column := c })
    | .error (.typeError m) =>
      some (.error { message := "Syntax analysis failed: " ++ m, phase := "syntax" })
    | .error .fuelOut => none

/-! ## Semantic analyzer (`CompilerService.semanticAnalysis`)

The `switch` in `analyze` contains two `VariableDeclaration` cases; the
first (source line 1299) wins, so every variable declaration is written to
the outermost `symbolTable` map, and the scope-aware second case (source
line 1359) is dead code.  A `node.value!` that is `undefined` would become
the JS `Map` key `undefined`; it is conflated here with the string
`"undefined"`, which no claim distinguishes. -/

/-- A JS `Map<string, SymbolTableEntry>`: insertion-ordered association
list; `set` overwrites in place or appends. -/
abbrev Scope := List (String × SymbolTableEntry)

/-- `Map.prototype.set` -/
def jsMapSet (m : Scope) (k : String) (v : SymbolTableEntry) : Scope :=
  if m.any (fun p => p.1 = k) then
    m.map (fun p => if p.1 = k then (k, v) else p)
  else m ++ [(k, v)]

/-- `Map.prototype.has` -/
def jsMapHas (m : Scope) (k : String) : Bool :=
  m.any (fun p => p.1 = k)

/-- `Map.prototype.get` -/
def jsMapGet (m : Scope) (k : String) : Option SymbolTableEntry :=
  (m.find? (fun p => p.1 = k)).map Prod.snd

/-- The `scopes` array: `global` is `scopes[0]` (aliased by the
`symbolTable` variable), `stack` holds the pushed scopes, innermost
first. -/
structure SemState where
  global : Scope
  stack : List Scope
deriving Repr

/-- Errors out of `semanticAnalysis`: a thrown `CompilerError`, or a raw
JS `TypeError` (the function has no `try`/`catch`). -/
inductive SemErr where
  | cerr (e : CompilerError)
  | typeError (msg : String)
deriving DecidableEq, Repr

/-- `scopes[scopes.length - 1].set(k, v)` -/
def setCurrentScope (st : SemState) (k : String) (v : SymbolTableEntry) : SemState :=
  match st.stack with
  | s :: rest => { st with stack := jsMapSet s k v :: rest }
  | [] => { st with global := jsMapSet st.global k v }

/-- `symbolTable.set(k, v)` (always the outermost scope). -/
def setGlobal (st : SemState) (k : String) (v : SymbolTableEntry) : SemState :=
  { st with global := jsMapSet st.global k v }

/-- The `Identifier` lookup `for (let i = scopes.length - 1; i >= 0; i--)`. -/
def scopeChainHas (st : SemState) (k : String) : Bool :=
  st.stack.any (fun s => jsMapHas s k) || jsMapHas st.global k

mutual

/-- `function analyze(node)`; first matching `case` wins. -/
def analyze : ASTNode → SemState → Except SemErr SemState
  | ASTNode.mk ty v cs, st =>
    if ty = "ClassDeclaration" then
      analyzeList cs (setGlobal st (jsTemplate v)
        { type := "variable", dataType := some "class", initialized := some true })
    else if ty = "MethodDeclaration" then
      if v = some "constructor" then
        analyzeList cs (setGlobal st "this"
          { type := "variable", dataType := some "object", initialized := some true })
      else
        analyzeList cs (setGlobal st (jsTemplate v)
          { type := "function",
            parameters := some ((cs.filter (fun c => c.type = "Parameter")).map
              (fun p => jsTemplate p.value)),
            returnType := some "number" })
    else if ty = "VariableDeclaration" then
      -- first of the two duplicate cases (source line 1299): writes to the
      -- global symbol table and does not recurse
      match cs.head? with
      | none => .error (.typeError "Cannot read properties of undefined (reading \x27value\x27)")
      | some c0 =>
        .ok (setGlobal st (jsTemplate c0.value)
          { type := "variable", declarationType := v,
            initialized := some true, dataType := some "object" })
    else if ty = "Program" then
      analyzeList cs (setGlobal st "console.log"
        { type := "function", parameters := some ["...args"], returnType := some "void" })
    else if ty = "FunctionDeclaration" then
      if jsTruthy v then
        let params := ((cs.filter (fun c => c.type = "Parameter")).map
          (fun p => p.value)).filterMap id
        let st1 := setCurrentScope st (v.getD "")
          { type := "function", parameters := some params, returnType := some "any" }
        let fnScope := params.foldl
          (fun (sc : Scope) p => jsMapSet sc p { type := "parameter", dataType := some "any" }) []
        match analyzeSkipParams cs { st1 with stack := fnScope :: st1.stack } with
        | .ok st2 => .ok { st2 with stack := st2.stack.tail }
        | .error e => .error e
      else .ok st
    else if ty = "Block" then
      match analyzeList cs { st with stack := [] :: st.stack } with
      | .ok st2 => .ok { st2 with stack := st2.stack.tail }
      | .error e => .error e
    else if ty = "Identifier" then
      if jsTruthy v then
        if scopeChainHas st (v.getD "") then .ok st
        else .error (.cerr { message := "Undefined variable: " ++ v.getD "",
                             phase := "semantic" })
      else .ok st
    else
      analyzeList cs st

/-- `node.children?.forEach(analyze)` -/
def analyzeList : List ASTNode → SemState → Except SemErr SemState
  | [], st => .ok st
  | c :: cs, st =>
    match analyze c st with
    | .ok st1 => analyzeList cs st1
    | .error e => .error e

/-- `node.children?.forEach(child => { if (child.type !== "Parameter") analyze(child) })` -/
def analyzeSkipParams : List ASTNode → SemState → Except SemErr SemState
  | [], st => .ok st
  | c :: cs, st =>
    if c.type = "Parameter" then analyzeSkipParams cs st
    else
      match analyze c st with
      | .ok st1 => analyzeSkipParams cs st1
      | .error e => .error e

end

/-- `CompilerService.semanticAnalysis`: returns the unmodified AST and the
completed (outermost) symbol table. -/
def semanticAnalysis (ast : ASTNode) : Except SemErr (ASTNode × Scope) :=
  match analyze ast { global := [], stack := [] } with
  | .ok st => .ok (ast, st.global)
  | .error e => .error e

/-! ## IR generator (`CompilerService.generateIntermediateCode`)

The `switch` in `generate` dispatches on `node.type` with many duplicate
cases; only the first occurrence of each label is reachable.  In
particular `BinaryExpression` (line 1452), `ReturnStatement` (line 1458),
`VariableDeclaration` (line 1462) and `MethodCall` (line 1466) hit the
class-demo cases, while the general lowering cases at lines 1518, 1526,
1584, 1595 and 1487 are dead code.  `generate` returns the emitted lines
plus the new temp/label counters and the JS return value
(`string | undefined`); the source only ever appends to the shared
`threeAddressCode` array, so this is observationally the same.  The error
string models an uncaught JS `TypeError`. -/

abbrev GenRes := Except String (List String × Nat × Nat × Option String)

mutual

/-- `function generate(node)` of `generateIntermediateCode`; `t` and `l`
are the current `tempCounter` and `labelCounter`.  The fuel argument only
makes the recursion structural: one unit is spent per visited node (and
per list cell), so the `sizeOf`-fuel supplied by
`generateIntermediateCode` can never run out on the recursion the source
performs. -/
def generate : Nat → ASTNode → Nat → Nat → GenRes
  | 0, _, _, _ => .error "out of fuel"
  | fuel + 1, ASTNode.mk ty v cs, t, l =>
    if ty = "ClassDeclaration" then
      match generateList fuel cs t l with
      | .error e => .error e
      | .ok (code, t1, l1, _) =>
        .ok (["class " ++ jsTemplate v ++ " \x7b"] ++ code ++ ["\x7d"], t1, l1, none)
    else if ty = "MethodDeclaration" then
      let head :=
        if v = some "constructor" then
          ["function " ++ jsTemplate v ++ "() \x7b", "this.value = 0"]
        else
          ["function " ++ jsTemplate v ++ "(" ++
            String.intercalate ", " ((cs.filter (fun c => c.type = "Parameter")).map
              (fun p => jsJoinPart p.value)) ++ ") \x7b"]
      match genSkipParams fuel cs t l with
      | .error e => .error e
      | .ok (code, t1, l1) => .ok (head ++ code ++ ["\x7d"], t1, l1, none)
    else if ty = "BinaryExpression" then
      -- first (class-demo) BinaryExpression case, source line 1452: the
      -- general lowering at lines 1526/1595 is dead code
      match cs.get? 1 with
      | none => .error "Cannot read properties of undefined (reading \x27value\x27)"
      | some c1 =>
        .ok (["t" ++ natRepr t ++ " = this.value " ++ jsTemplate v ++ " " ++ jsTemplate c1.value,
              "this.value = t" ++ natRepr t], t + 1, l, none)
    else if ty = "ReturnStatement" then
      -- first ReturnStatement case, source line 1458
      match cs with
      | [] => .error "Cannot read properties of undefined (reading \x27type\x27)"
      | c0 :: _ =>
        if c0.type = "ThisExpression" then .ok (["return this.value"], t, l, none)
        else
          match generate fuel c0 t l with
          | .error e => .error e
          | .ok (code, t1, l1, r) => .ok (code ++ ["return " ++ jsTemplate r], t1, l1, none)
    else if ty = "VariableDeclaration" then
      -- first VariableDeclaration case, source line 1462: every variable
      -- declaration is emitted as a `new` construction; the general case
      -- at line 1584 is dead code
      match cs with
      | c0 :: c1 :: _ =>
        .ok ([jsTemplate c0.value ++ " = new " ++ jsTemplate c1.value ++ "()"], t, l, none)
      | _ => .error "Cannot read properties of undefined (reading \x27value\x27)"
    else if ty = "MethodCall" then
      -- first MethodCall case, source line 1466
      match cs.head? with
      | none => .error "Cannot read properties of undefined (reading \x27value\x27)"
      | some c0 =>
        .ok ([jsTemplate c0.value ++ "." ++ jsTemplate v ++ "(" ++
          String.intercalate ", " ((cs.drop 1).map (fun a => jsJoinPart a.value)) ++ ")"],
          t, l, none)
    else if ty = "Program" then
      match generateList fuel cs t l with
      | .error e => .error e
      | .ok (code, t1, l1, _) => .ok (code, t1, l1, some "")
    else if ty = "ArrayLiteral" then
      let temp := "t" ++ natRepr t
      match genArrayElems fuel temp cs (t + 1) l 0 with
      | .error e => .error e
      | .ok (code, t1, l1) => .ok ([temp ++ " = []"] ++ code, t1, l1, some temp)
    else if ty = "ArrowFunction" then
      let bodyRes :=
        match cs with
        | c0 :: _ => generate fuel c0 t l
        | [] => .ok ([], t, l, some "")  -- generate(undefined) returns ""
      match bodyRes with
      | .error e => .error e
      | .ok (code, t1, l1, body) =>
        .ok (code ++ ["t" ++ natRepr t1 ++ " = function(" ++ jsTemplate v ++
          ") \x7b return " ++ jsTemplate body ++ "; \x7d"], t1 + 1, l1, some ("t" ++ natRepr t1))
    else if ty = "Block" then
      match generateList fuel cs t l with
      | .error e => .error e
      | .ok (code, t1, l1, _) => .ok (code, t1, l1, some "")
    else if ty = "FunctionDeclaration" then
      if jsTruthy v then
        match genFnChildren fuel cs t l with
        | .error e => .error e
        | .ok (code, t1, l1) =>
          .ok (["function " ++ jsTemplate v ++ ":"] ++ code, t1, l1, some "")
      else .ok ([], t, l, some "")
    else if ty = "FunctionCall" then
      if jsTruthy v then
        match generateList fuel cs t l with
        | .error e => .error e
        | .ok (code, t1, l1, vals) =>
          .ok (code ++ vals.map (fun r => "param " ++ jsTemplate r) ++
            ["t" ++ natRepr t1 ++ " = call " ++ jsTemplate v ++ ", " ++ natRepr vals.length],
            t1 + 1, l1, some ("t" ++ natRepr t1))
      else .ok ([], t, l, some "")
    else if ty = "ExpressionStatement" then
      match cs with
      | c0 :: _ =>
        match generate fuel c0 t l with
        | .error e => .error e
        | .ok (code, t1, l1, _) => .ok (code, t1, l1, some "")
      | [] => .ok ([], t, l, some "")
    else if ty = "IfStatement" then
      -- labels are allocated before the condition is generated
      let labelTrue := "L" ++ natRepr l
      let labelEnd := "L" ++ natRepr (l + 1)
      match cs with
      | cond :: rest =>
        match generate fuel cond t (l + 2) with
        | .error e => .error e
        | .ok (ccode, t1, l3, condRes) =>
          let thenRes : Except String (List String × Nat × Nat) :=
            match rest with
            | thn :: _ =>
              match generate fuel thn t1 l3 with
              | .error e => .error e
              | .ok (tcode, t2, l4, _) => .ok (tcode, t2, l4)
            | [] => .ok (([] : List String), t1, l3)
          match thenRes with
          | .error e => .error e
          | .ok (tcode, t2, l4) =>
            .ok (ccode ++
              ["if " ++ jsTemplate condRes ++ " goto " ++ labelTrue,
               "goto " ++ labelEnd, labelTrue ++ ":"] ++ tcode ++ [labelEnd ++ ":"],
              t2, l4, some "")
      | [] => .ok ([], t, l + 2, some "")
    else if ty = "AssignmentExpression" then
      match cs with
      | [_c0, c1] =>
        if jsTruthy v then
          match generate fuel c1 t l with
          | .error e => .error e
          | .ok (rcode, t1, l1, right) =>
            let left := jsOrElse (cs.head?.bind ASTNode.value) ""
            if v = some "=" then
              .ok (rcode ++ [left ++ " = " ++ jsTemplate right], t1, l1, some left)
            else
              .ok (rcode ++
                ["t" ++ natRepr t1 ++ " = " ++ left ++ " " ++ (v.getD "").take 1 ++ " " ++
                  jsTemplate right, left ++ " = t" ++ natRepr t1], t1 + 1, l1, some left)
        else .ok ([], t, l, some "")
      | _ => .ok ([], t, l, some "")
    else if ty = "NumberLiteral" then
      .ok ([], t, l, some (jsOrElse v "0"))
    else if ty = "Identifier" then
      .ok ([], t, l, some (jsOrElse v ""))
    else
      .ok ([], t, l, some "")
termination_by structural fuel n t l => fuel

/-- `node.children?.forEach(generate)` / `children.map(generate)`: emitted
lines in order, final counters, and the list of returned values. -/
def generateList : Nat → List ASTNode → Nat → Nat → Except String (List String × Nat × Nat × List (Option String))
  | 0, _, _, _ => .error "out of fuel"
  | _ + 1, [], t, l => .ok ([], t, l, [])
  | fuel + 1, c :: cs, t, l =>
    match generate fuel c t l with
    | .error e => .error e
    | .ok (code, t1, l1, r) =>
      match generateList fuel cs t1 l1 with
      | .error e => .error e
      | .ok (code2, t2, l2, rs) => .ok (code ++ code2, t2, l2, r :: rs)
termination_by structural fuel n t l => fuel

/-- `forEach` over class/method children skipping `Parameter` nodes. -/
def genSkipParams : Nat → List ASTNode → Nat → Nat → Except String (List String × Nat × Nat)
  | 0, _, _, _ => .error "out of fuel"
  | _ + 1, [], t, l => .ok ([], t, l)
  | fuel + 1, c :: cs, t, l =>
    if c.type = "Parameter" then genSkipParams fuel cs t l
    else
      match generate fuel c t l with
      | .error e => .error e
      | .ok (code, t1, l1, _) =>
        match genSkipParams fuel cs t1 l1 with
        | .error e => .error e
        | .ok (code2, t2, l2) => .ok (code ++ code2, t2, l2)
termination_by structural fuel n t l => fuel

/-- `forEach` over function-declaration children: `Parameter` children
emit `param` lines, others are generated. -/
def genFnChildren : Nat → List ASTNode → Nat → Nat → Except String (List String × Nat × Nat)
  | 0, _, _, _ => .error "out of fuel"
  | _ + 1, [], t, l => .ok ([], t, l)
  | fuel + 1, c :: cs, t, l =>
    if c.type = "Parameter" then
      match genFnChildren fuel cs t l with
      | .error e => .error e
      | .ok (code, t1, l1) => .ok (["param " ++ jsTemplate c.value] ++ code, t1, l1)
    else
      match generate fuel c t l with
      | .error e => .error e
      | .ok (code, t1, l1, _) =>
        match genFnChildren fuel cs t1 l1 with
        | .error e => .error e
        | .ok (code2, t2, l2) => .ok (code ++ code2, t2, l2)
termination_by structural fuel n t l => fuel

/-- Indexed `forEach` over array-literal elements (source lines
1480-1483). -/
def genArrayElems : Nat → String → List ASTNode → Nat → Nat → Nat → Except String (List String × Nat × Nat)
  | 0, _, _, _, _, _ => .error "out of fuel"
  | _ + 1, _, [], t, l, _ => .ok ([], t, l)
  | fuel + 1, temp, c :: cs, t, l, idx =>
    match generate fuel c t l with
    | .error e => .error e
    | .ok (code, t1, l1, r) =>
      match genArrayElems fuel temp cs t1 l1 (idx + 1) with
      | .error e => .error e
      | .ok (code2, t2, l2) =>
        .ok (code ++ [temp ++ "[" ++ natRepr idx ++ "] = " ++ jsTemplate r] ++ code2, t2, l2)
termination_by structural fuel temp n t l i => fuel

end

mutual

/-- Fuel budget for `generate`: one unit per node and per list cell,
exactly dominating what the recursion can spend. -/
def astFuel : ASTNode → Nat
  | ASTNode.mk _ _ cs => 1 + astFuelList cs

def astFuelList : List ASTNode → Nat
  | [] => 1
  | c :: cs => 1 + astFuel c + astFuelList cs

end

/-- `CompilerService.generateIntermediateCode`: run `generate` with both
counters starting at 0 and return the emitted three-address code.  The
fuel `astFuel ast` strictly dominates the number of fuel units the
recursion can spend, so it never runs out. -/
def generateIntermediateCode (ast : ASTNode) : Except String (List String) :=
  match generate (astFuel ast) ast 0 0 with
  | .ok (code, _, _, _) => .ok code
  | .error e => .error e

/-! ## Optimizer (`CompilerService.optimize`) -/

/-- The `variables` substitution map (JS `Map<string, string>`). -/
abbrev VarMap := List (String × String)

def varSet (m : VarMap) (k v : String) : VarMap :=
  if m.any (fun p => p.1 = k) then
    m.map (fun p => if p.1 = k then (k, v) else p)
  else m ++ [(k, v)]

def varGet (m : VarMap) (k : String) : Option String :=
  (m.find? (fun p => p.1 = k)).map Prod.snd

/-- `variables.get(k) || k` (JS `||` falls back on `undefined` or `""`). -/
def varGetOr (m : VarMap) (k : String) : String :=
  match varGet m k with
  | some s => if s ≠ "" then s else k
  | none => k

/-- The constant-folding `switch (op)` of the optimizer (`null` result is
`none`). -/
def foldOp (op : String) (a b : JsNum) : Option JsNum :=
  if op = "+" then some (jsAdd a b)
  else if op = "-" then some (jsSub a b)
  else if op = "*" then some (jsMul a b)
  else if op = "/" then some (jsDiv a b)
  else none

/-- One iteration of the optimizer's main `for` loop: returns the lines
pushed for `line` and the updated substitution map.  The first `if` block
(source lines 1681-1698) has no `continue`, so its pushes can be followed
by more pushes for the same line from the later blocks; an error is a JS
`TypeError` from `operation.includes` when a line contains `"="` but not
`" = "`. -/
def optimizeStep (vars : VarMap) (line : String) : Except String (List String × VarMap) :=
  -- source line 1675: class / function / return lines pass through
  if jsIncludes line "class" || jsIncludes line "function" || jsIncludes line "return" then
    .ok ([line], vars)
  else
    -- source lines 1681-1698 (no continue)
    let partsAB := jsSplit line " = "
    let result := partsAB.headD ""
    match
      (if jsIncludes line "=" then
        match partsAB.get? 1 with
        | none => Except.error "Cannot read properties of undefined (reading \x27includes\x27)"
        | some operation =>
          if jsIncludes operation "new" then .ok [line]
          else
            match jsSplit operation " " with
            | [left, op, right] =>
              if jsIsNumeric right then
                .ok [result ++ " = " ++ left ++ " " ++ op ++ " " ++ right]
              else .ok []
            | _ => .ok []
      else if jsIncludes line "." then Except.ok [line]
      else Except.ok []) with
    | .error e => .error e
    | .ok pushesB =>
      -- source lines 1701-1709
      if jsStartsWith line "function" || jsStartsWith line "param" ||
          jsIncludes line "call" || jsStartsWith line "return" then
        .ok (pushesB ++ [line], vars)
      else
      -- source lines 1712-1778
      if jsIncludes line "=" then
        match partsAB.get? 1 with
        | none => .error "Cannot read properties of undefined (reading \x27includes\x27)"
        | some operation =>
          let resultVar := jsTrim result
          if ¬ jsIncludes operation " " then
            let value := jsTrim operation
            if jsIsNumeric value then
              .ok (pushesB ++ [resultVar ++ " = " ++ value], varSet vars resultVar value)
            else
              match varGet vars value with
              | some knownValue =>
                if knownValue ≠ "" then
                  .ok (pushesB ++ [resultVar ++ " = " ++ knownValue],
                       varSet vars resultVar knownValue)
                else .ok (pushesB ++ [line], vars)
              | none => .ok (pushesB ++ [line], vars)
          else
            match jsSplit operation " " with
            | [left0, op0, right0] =>
              let left := jsTrim left0
              let op := jsTrim op0
              let right := jsTrim right0
              let leftVal := varGetOr vars left
              let rightVal := varGetOr vars right
              match
                (if jsIsNumeric leftVal && jsIsNumeric rightVal then
                  match jsNumber leftVal, jsNumber rightVal with
                  | some a, some b => foldOp op a b
                  | _, _ => none
                else none) with
              | some v =>
                .ok (pushesB ++ [resultVar ++ " = " ++ jsNumToString v],
                     varSet vars resultVar (jsNumToString v))
              | none =>
                let newLeft := varGetOr vars left
                let newRight := varGetOr vars right
                if newLeft ≠ left || newRight ≠ right then
                  .ok (pushesB ++ [resultVar ++ " = " ++ newLeft ++ " " ++ op ++ " " ++ newRight],
                       vars)
                else .ok (pushesB ++ [line], vars)
            | _ =>
              -- parts.length !== 3: no continue, falls to the final push
              .ok (pushesB ++ [line], vars)
      else
        -- final `optimized.push(line)`
        .ok (pushesB ++ [line], vars)

/-- The optimizer's main loop over all lines. -/
def optimizeMain (vars : VarMap) : List String → Except String (List String)
  | [] => .ok []
  | line :: rest =>
    match optimizeStep vars line with
    | .error e => .error e
    | .ok (pushed, vars1) =>
      match optimizeMain vars1 rest with
      | .error e => .error e
      | .ok out => .ok (pushed ++ out)

/-- The duplicate-assignment removal pass (source lines 1786-1800). -/
def dedupePass (seen : List String) : List String → Except String (List String)
  | [] => .ok []
  | line :: rest =>
    if jsIncludes line "=" then
      let parts := jsSplit line " = "
      match parts.get? 1 with
      | none => .error "Cannot read properties of undefined (reading \x27trim\x27)"
      | some operation =>
        let key := jsTrim (parts.headD "") ++ "=" ++ jsTrim operation
        if seen.contains key then dedupePass seen rest
        else
          match dedupePass (seen ++ [key]) rest with
          | .error e => .error e
          | .ok out => .ok (line :: out)
    else
      match dedupePass seen rest with
      | .error e => .error e
      | .ok out => .ok (line :: out)

/-- `CompilerService.optimize` -/
def optimize (intermediateCode : List String) : Except String (List String) :=
  match optimizeMain [] intermediateCode with
  | .error e => .error e
  | .ok lines => dedupePass [] lines

/-! ## Code generator (`CompilerService.generateTargetCode`) -/

/-- `${x}` on a `string | null` variable: `null` renders as `"null"`. -/
def jsTemplateN (o : Option String) : String :=
  match o with
  | some s => s
  | none => "null"

/-- `String.prototype.indexOf`: first occurrence or `-1`. -/
def jsIndexOfAux (pat : List Char) : List Char → Nat → Int
  | [], i => if pat.isPrefixOf [] then (i : Int) else -1
  | c :: rest, i =>
    if pat.isPrefixOf (c :: rest) then (i : Int)
    else jsIndexOfAux pat rest (i + 1)

def jsIndexOf (s pat : String) : Int :=
  jsIndexOfAux pat.data s.data 0

/-- `String.prototype.slice` with signed index normalization. -/
def jsSliceIdx (n : Nat) (i : Int) : Nat :=
  let j : Int := if i < 0 then (n : Int) + i else i
  if j < 0 then 0 else if j > (n : Int) then n else j.toNat

def jsSlice (s : String) (start : Int) (stop : Option Int) : String :=
  let n := s.data.length
  let a := jsSliceIdx n start
  let b := match stop with | some e => jsSliceIdx n e | none => n
  String.mk ((s.data.drop a).take (b - a))

/-- `String.prototype.replace` with a plain-string pattern: first
occurrence only. -/
def jsReplaceFirstAux (pat rep : List Char) : Nat → List Char → List Char
  | 0, cs => cs
  | _ + 1, [] => []
  | fuel + 1, c :: rest =>
    if pat.isPrefixOf (c :: rest) then rep ++ (c :: rest).drop pat.length
    else c :: jsReplaceFirstAux pat rep fuel rest

def jsReplaceFirst (s pat rep : String) : String :=
  String.mk (jsReplaceFirstAux pat.data rep.data (s.data.length + 1) s.data)

/-- The mutable state of `generateTargetCode`'s loop: the output array is
part of the state because the `param` branch reads `targetCode.length`. -/
structure TgtState where
  targetCode : List String
  currentFunction : Option String
  currentClass : Option String
deriving Repr

/-- One iteration of `generateTargetCode`'s `for` loop.  The `this.value`
and bare `startsWith("return")` branches (source lines 1828-1841) have no
`continue`, so control can fall into later branches for the same line; the
branch at line 1843 (`startsWith "function "`) is dead because line 1820
already `continue`d for it.  Line 1837 pushes a plain (non-template)
string literal, kept verbatim. -/
def targetStep (st : TgtState) (line : String) : Except String TgtState :=
  if jsStartsWith line "class" then
    match (jsSplit line " ").get? 1 with
    | none => .error "Cannot read properties of undefined (reading \x27replace\x27)"
    | some w =>
      let cls := jsReplaceFirst w "\x7b" ""
      .ok { st with
              currentClass := some cls,
              targetCode := st.targetCode ++
                ["section .data", cls ++ "_value dd 0", "section .text"] }
  else if jsStartsWith line "function" then
    match (jsSplit line " ").get? 1 with
    | none => .error "Cannot read properties of undefined (reading \x27split\x27)"
    | some w =>
      let funcName := (jsSplit w "(").headD ""
      .ok { st with targetCode := st.targetCode ++
        [jsTemplateN st.currentClass ++ "_" ++ funcName ++ ":", "  push rbp", "  mov rbp, rsp"] }
  else
    -- source lines 1828-1841: no continue in these two branches
    let st1 :=
      if jsIncludes line "this.value" then
        if jsIncludes line "=" then
          let value := jsTemplate ((jsSplit line " = ").get? 1)
          { st with targetCode := st.targetCode ++
            ["  mov eax, " ++ value,
             "  mov [" ++ jsTemplateN st.currentClass ++ "_value], eax"] }
        else st
      else st
    let st2 :=
      if jsStartsWith line "return" then
        { st1 with targetCode := st1.targetCode ++
          ["  mov eax, [${currentClass}_value]", "  mov rsp, rbp", "  pop rbp", "  ret"] }
      else st1
    if jsStartsWith line "function " then
      -- dead code (line 1843): the `function` branch above always fires first
      let fn := jsSlice line 9 (some (-1))
      .ok { st2 with
              currentFunction := some fn,
              targetCode := st2.targetCode ++
                [fn ++ ":", "  push rbp", "  mov rbp, rsp",
                 "  mov rdi, format_str", "  mov rsi, " ++ jsSlice line 6 none,
                 "  call printf"] }
    else if jsIncludes line "call" then
      let parts := jsSplit line " = call "
      match parts.get? 1 with
      | none => .error "Cannot read properties of undefined (reading \x27split\x27)"
      | some callInfo =>
        let result := parts.headD ""
        let cparts := jsSplit callInfo ", "
        let func := cparts.headD ""
        let argCount := jsTemplate (cparts.get? 1)
        let base := st2.targetCode ++ ["  call " ++ func, "  mov " ++ result ++ ", rax"]
        match jsParseInt argCount with
        | some k =>
          if k > 0 then
            .ok { st2 with targetCode := base ++ ["  add rsp, " ++ natRepr (k * 8)] }
          else .ok { st2 with targetCode := base }
        | none => .ok { st2 with targetCode := base }
    else if jsStartsWith line "param " then
      let param := jsSlice line 6 none
      let t1 := st2.targetCode ++ ["  push " ++ param]
      .ok { st2 with targetCode := t1 ++
        ["  mov " ++ param ++ ", [rbp + " ++ natRepr (t1.length * 8) ++ "]"] }
    else if jsStartsWith line "return " then
      let returnValue := jsSlice line 7 none
      let t1 := if returnValue ≠ "" then st2.targetCode ++ ["  mov rax, " ++ returnValue]
                else st2.targetCode
      .ok { st2 with targetCode := t1 ++ ["  mov rsp, rbp", "  pop rbp", "  ret"] }
    else if jsEndsWith line ":" then
      if jsStartsWith line "func_" then
        .ok { st2 with
                currentFunction := some (jsSlice line 5 (some (-1))),
                targetCode := st2.targetCode ++ [line, "  push rbp", "  mov rbp, rsp"] }
      else .ok { st2 with targetCode := st2.targetCode ++ [line] }
    else if line = "return" then
      .ok { st2 with
              currentFunction := none,
              targetCode := st2.targetCode ++ ["  mov rsp, rbp", "  pop rbp", "  ret"] }
    else if jsStartsWith line "if " then
      let condition := jsSlice line 3 (some (jsIndexOf line " goto"))
      let label := jsSlice line (jsIndexOf line "goto " + 5) none
      .ok { st2 with targetCode := st2.targetCode ++
        ["  cmp " ++ condition ++ ", 0", "  jne " ++ label] }
    else if jsStartsWith line "goto " then
      .ok { st2 with targetCode := st2.targetCode ++ ["  jmp " ++ jsSlice line 5 none] }
    else if jsIncludes line "=" then
      let parts := jsSplit line " = "
      match parts.get? 1 with
      | none => .error "Cannot read properties of undefined (reading \x27includes\x27)"
      | some src =>
        let dest := parts.headD ""
        if jsIncludes src " " then
          let sparts := jsSplit src " "
          let left := jsTemplate (sparts.get? 0)
          let op := jsTemplate (sparts.get? 1)
          let right := jsTemplate (sparts.get? 2)
          let opCode :=
            if op = "+" then ["  add rax, " ++ right]
            else if op = "-" then ["  sub rax, " ++ right]
            else if op = "*" then ["  imul rax, " ++ right]
            else if op = "/" then ["  xor rdx, rdx", "  div " ++ right]
            else []
          .ok { st2 with targetCode := st2.targetCode ++
            ["  mov rax, " ++ left] ++ opCode ++ ["  mov " ++ dest ++ ", rax"] }
        else
          .ok { st2 with targetCode := st2.targetCode ++
            ["  mov " ++ dest ++ ", " ++ src] }
    else .ok st2

/-- The loop of `generateTargetCode` over all lines. -/
def targetLoop (st : TgtState) : List String → Except String TgtState
  | [] => .ok st
  | line :: rest =>
    match targetStep st line with
    | .error e => .error e
    | .ok st1 => targetLoop st1 rest

/-- `CompilerService.generateTargetCode` -/
def generateTargetCode (intermediateCode : List String) : Except String (List String) :=
  match targetLoop { targetCode := [], currentFunction := none, currentClass := none }
      intermediateCode with
  | .error e => .error e
  | .ok st => .ok st.targetCode

/-! ## Full pipeline

The presentation layer chains the phases in order (e.g.
`CompilerStepVisualizer`: `lexicalAnalysis`, `syntaxAnalysis`,
`semanticAnalysis`, `generateIntermediateCode`, `optimize`,
`generateTargetCode`); the first error aborts the run. -/

structure CompileOutput where
  tokens : List Token
  ast : ASTNode
  symbolTable : Scope
  ir : List String
  optimizedIr : List String
  target : List String
deriving Repr

inductive CompileResult where
  | ok (out : CompileOutput)
  | compilerError (e : CompilerError)
  | jsError (msg : String)
  | diverged
deriving Repr

/-- The full six-phase pipeline as the host invokes it. -/
def compile (src : String) : CompileResult :=
  match lexicalAnalysis src with
  | .error e => .compilerError e
  | .ok tokens =>
    match syntaxAnalysis tokens with
    | none => .diverged
    | some (.error e) => .compilerError e
    | some (.ok ast) =>
      match semanticAnalysis ast with
      | .error (.cerr e) => .compilerError e
      | .error (.typeError m) => .jsError m
      | .ok (ast2, symtab) =>
        match generateIntermediateCode ast2 with
        | .error m => .jsError m
        | .ok ir =>
          match optimize ir with
          | .error m => .jsError m
          | .ok opt =>
            match generateTargetCode opt with
            | .error m => .jsError m
            | .ok tgt =>
              .ok { tokens := tokens, ast := ast, symbolTable := symtab,
                    ir := ir, optimizedIr := opt, target := tgt }

/-! ## Character-class helper lemmas -/

/-- Characters the lexer consumes into a token without loss: identifier
characters and single-character operators (whitespace is the discarded
class; quotes and unrecognized characters lose text). -/
def goodChar (c : Char) : Bool :=
  isWSChar c || isAlnumU c || opChars.contains c

lemma mem_of_contains {α : Type} [BEq α] [LawfulBEq α] {l : List α} {a : α}
    (h : l.contains a = true) : a ∈ l := by simpa using h

lemma opChars_not_ws : ∀ c ∈ opChars, isWSChar c = false := by decide

lemma lexOps_chars_not_ws : ∀ s ∈ lexOperators, ∀ ch ∈ s.data, isWSChar ch = false := by
  decide

lemma isWSChar_cases {c : Char} (h : isWSChar c = true) :
    c = ' ' ∨ c = '\t' ∨ c = '\n' ∨ c = '\r' ∨ c = '\x0b' ∨ c = '\x0c' := by
  have h2 := h
  simp only [isWSChar, Bool.or_eq_true, decide_eq_true_eq] at h2
  tauto

lemma not_ws_of_alpha {c : Char} (h : isAlphaU c = true) : isWSChar c = false := by
  by_contra hne
  have hws : isWSChar c = true := by
    cases hv : isWSChar c
    · exact absurd hv hne
    · rfl
  rcases isWSChar_cases hws with rfl | rfl | rfl | rfl | rfl | rfl <;>
    exact absurd h (by decide)

lemma not_ws_of_digit {c : Char} (h : isDigitC c = true) : isWSChar c = false := by
  by_contra hne
  have hws : isWSChar c = true := by
    cases hv : isWSChar c
    · exact absurd hv hne
    · rfl
  rcases isWSChar_cases hws with rfl | rfl | rfl | rfl | rfl | rfl <;>
    exact absurd h (by decide)

lemma not_ws_of_alnum {c : Char} (h : isAlnumU c = true) : isWSChar c = false := by
  have := h
  unfold isAlnumU at this
  rcases Bool.or_eq_true_iff.mp this with ha | hd
  · exact not_ws_of_alpha ha
  · exact not_ws_of_digit hd

lemma not_ws_of_numC {c : Char} (h : isNumC c = true) : isWSChar c = false := by
  have := h
  unfold isNumC at this
  rcases Bool.or_eq_true_iff.mp this with hd | hdot
  · exact not_ws_of_digit hd
  · have : c = '.' := by simpa using hdot
    subst this
    decide

/-- Two-character operator tokens consist of non-whitespace characters. -/
lemma twoCharOp_not_ws {c n : Char}
    (h : lexOperators.contains (String.mk [c, n]) = true) :
    isWSChar c = false ∧ isWSChar n = false := by
  have hmem := mem_of_contains h
  have hc := lexOps_chars_not_ws _ hmem c (by simp [String.data])
  have hn := lexOps_chars_not_ws _ hmem n (by simp [String.data])
  exact ⟨hc, hn⟩

/-- Lexer completeness on loss-free characters: the concatenated token
texts are exactly the non-whitespace source characters. -/
lemma lexRun_concat : ∀ (fuel : Nat) (cs : List Char) (line col : Nat),
    cs.length ≤ fuel → (∀ c ∈ cs, goodChar c = true) →
    ((lexRun fuel cs line col).map (fun t => t.value.data)).flatten
      = cs.filter (fun c => !isWSChar c) := by
  intro fuel
  induction fuel with
  | zero =>
    intro cs line col hlen _
    have : cs = [] := List.length_eq_zero.mp (Nat.le_zero.mp hlen)
    subst this
    simp [lexRun]
  | succ fuel ih =>
    intro cs line col hlen hgood
    match cs with
    | [] => simp [lexRun]
    | c :: rest =>
      have hgc : goodChar c = true := hgood c (by simp)
      have hgrest : ∀ x ∈ rest, goodChar x = true := fun x hx => hgood x (by simp [hx])
      have hlen' : rest.length ≤ fuel := by simpa using hlen
      by_cases hwsp : isWSChar c = true
      · by_cases hnl : c = '\n'
        · subst hnl
          simp [lexRun, hwsp, ih rest (line+1) 0 hlen' hgrest, List.filter_cons]
        · have hni : (c = '\n') = False := by simp [hnl]
          simp [lexRun, hwsp, hni, ih rest line (col+1) hlen' hgrest, List.filter_cons]
      · have hwsf : isWSChar c = false := by
          cases hv : isWSChar c
          · rfl
          · exact absurd hv hwsp
        by_cases ha : isAlphaU c = true
        · -- identifier / keyword token
          have hkeep : rest.takeWhile isAlnumU ++ rest.dropWhile isAlnumU = rest :=
            List.takeWhile_append_dropWhile isAlnumU rest
          have hlen2 : (rest.dropWhile isAlnumU).length ≤ fuel :=
            le_trans ((List.dropWhile_sublist isAlnumU).length_le) hlen'
          have hgood2 : ∀ x ∈ rest.dropWhile isAlnumU, goodChar x = true :=
            fun x hx => hgrest x ((List.dropWhile_sublist isAlnumU).subset hx)
          have htake : (rest.takeWhile isAlnumU).filter (fun x => !isWSChar x)
              = rest.takeWhile isAlnumU :=
            List.filter_eq_self.mpr (fun x hx => by
              simp [not_ws_of_alnum (List.mem_takeWhile_imp hx)])
          simp only [lexRun, hwsf, ha, Bool.false_eq_true, if_false, if_true,
            List.map_cons, List.flatten_cons, ih _ _ _ hlen2 hgood2]
          rw [List.filter_cons_of_pos (by simp [hwsf])]
          conv_rhs => rw [← hkeep]
          rw [List.filter_append, htake]
          rfl
        · by_cases hd : isDigitC c = true
          · -- number token
            have hkeep : rest.takeWhile isNumC ++ rest.dropWhile isNumC = rest :=
              List.takeWhile_append_dropWhile isNumC rest
            have hlen2 : (rest.dropWhile isNumC).length ≤ fuel :=
              le_trans ((List.dropWhile_sublist isNumC).length_le) hlen'
            have hgood2 : ∀ x ∈ rest.dropWhile isNumC, goodChar x = true :=
              fun x hx => hgrest x ((List.dropWhile_sublist isNumC).subset hx)
            have htake : (rest.takeWhile isNumC).filter (fun x => !isWSChar x)
                = rest.takeWhile isNumC :=
              List.filter_eq_self.mpr (fun x hx => by
                simp [not_ws_of_numC (List.mem_takeWhile_imp hx)])
            simp only [lexRun, hwsf, ha, hd, Bool.false_eq_true, if_false, if_true,
              List.map_cons, List.flatten_cons, ih _ _ _ hlen2 hgood2]
            rw [List.filter_cons_of_pos (by simp [hwsf])]
            conv_rhs => rw [← hkeep]
            rw [List.filter_append, htake]
            rfl
          · -- operator character
            have hcontains : opChars.contains c = true := by
              have h2 := hgc
              unfold goodChar isAlnumU at h2
              simp only [Bool.or_eq_true] at h2
              rcases h2 with (hw | (h3 | h4)) | h5
              · exact absurd hw hwsp
              · exact absurd h3 ha
              · exact absurd h4 hd
              · exact h5
            have hcws : isWSChar c = false :=
              opChars_not_ws c (mem_of_contains hcontains)
            have hquote : (c = '"' || c = Char.ofNat 39) = false := by
              by_contra hne
              have hq : (c = '"' || c = Char.ofNat 39) = true := by
                cases hv : (c = '"' || c = Char.ofNat 39)
                · exact absurd hv hne
                · rfl
              have hmem := mem_of_contains hcontains
              simp only [Bool.or_eq_true, decide_eq_true_eq] at hq
              rcases hq with rfl | rfl
              · revert hmem; decide
              · revert hmem; decide
            have hmem : c ∈ opChars := mem_of_contains hcontains
            match rest with
            | [] =>
              simp [lexRun, hwsf, ha, hd, hquote, hcontains, hmem, List.filter_cons]
            | n :: rest2 =>
              by_cases hcomb : lexOperators.contains (String.mk [c, n]) = true
              · obtain ⟨hc1, hn1⟩ := twoCharOp_not_ws hcomb
                have hcombm : String.mk [c, n] ∈ lexOperators := mem_of_contains hcomb
                have hlen2 : rest2.length ≤ fuel := by
                  have : rest2.length + 1 ≤ fuel := by simpa using hlen'
                  omega
                have hgood2 : ∀ x ∈ rest2, goodChar x = true :=
                  fun x hx => hgrest x (by simp [hx])
                simp [lexRun, hwsf, ha, hd, hquote, hcontains, hcomb, hmem, hcombm,
                  ih _ _ _ hlen2 hgood2, List.filter_cons, hn1]
              · have hcombm : ¬ (String.mk [c, n] ∈ lexOperators) :=
                  fun hm => hcomb (by simpa using hm)
                simp [lexRun, hwsf, ha, hd, hquote, hcontains, hcomb, hmem, hcombm,
                  ih _ _ _ hlen' hgrest, List.filter_cons]

/-! ## Claim C3 — lexeme concatenation -/

/-- **C3, counterexample.**  The claim "for every non-empty source string,
concatenating the token values reproduces the source minus whitespace"
fails at `"@"`: the lexer silently skips the unrecognized character and
returns no tokens, so the concatenation is empty while the non-whitespace
content is `"@"`. -/
theorem claim_C3_counterexample :
    lexicalAnalysis "@" = .ok [] ∧
    "@".data.filter (fun c => !isWSChar c) = ['@'] ∧
    ((([] : List Token).map (fun t => t.value.data)).flatten ≠ ['@']) := by
  refine ⟨rfl, by decide, by simp⟩

/-- **C3, amended.**  For a source string that passes validation and
consists only of whitespace, identifier/number characters and
single-character operator characters (no string quotes, no unrecognized
characters), concatenating the token values in order reproduces exactly
the source text with all whitespace removed. -/
theorem claim_C3_amended (s : String)
    (h1 : ∀ c ∈ s.data, goodChar c = true) (h2 : jsTrim s ≠ "") :
    ∃ ts, lexicalAnalysis s = .ok ts ∧
      (ts.map (fun t => t.value.data)).flatten
        = s.data.filter (fun c => !isWSChar c) := by
  unfold lexicalAnalysis validateInput
  rw [if_neg h2]
  exact ⟨_, rfl, lexRun_concat _ _ 1 0 le_rfl h1⟩

/-- **C3, witness.**  The amended statement applied to
`"let x = 2 + 3;"`. -/
theorem claim_C3_amended_witness :
    ∃ ts, lexicalAnalysis "let x = 2 + 3;" = .ok ts ∧
      (ts.map (fun t => t.value.data)).flatten
        = "let x = 2 + 3;".data.filter (fun c => !isWSChar c) :=
  claim_C3_amended "let x = 2 + 3;" (by decide) (by decide)

/-! ## Claim C8 — empty-input validation -/

/-- **C8.**  Any source whose trim is empty (including `""`) makes
`lexicalAnalysis` throw the validation error `"Source code cannot be
empty"` before producing any token, and the full pipeline stops with that
same error — no later phase runs. -/
theorem claim_C8 (s : String) (h : jsTrim s = "") :
    lexicalAnalysis s
      = .error { message := "Source code cannot be empty", phase := "validation" } ∧
    compile s
      = .compilerError { message := "Source code cannot be empty", phase := "validation" } := by
  have hl : lexicalAnalysis s
      = .error { message := "Source code cannot be empty", phase := "validation" } := by
    unfold lexicalAnalysis validateInput
    rw [if_pos h]
  refine ⟨hl, ?_⟩
  unfold compile
  rw [hl]

/-- **C8, witness.**  The statement at the whitespace-only source `"  "`
(and the empty string is covered the same way). -/
theorem claim_C8_witness :
    (lexicalAnalysis "  "
      = .error { message := "Source code cannot be empty", phase := "validation" } ∧
     compile "  "
      = .compilerError { message := "Source code cannot be empty", phase := "validation" }) ∧
    (lexicalAnalysis ""
      = .error { message := "Source code cannot be empty", phase := "validation" } ∧
     compile ""
      = .compilerError { message := "Source code cannot be empty", phase := "validation" }) :=
  ⟨claim_C8 "  " (by decide), claim_C8 "" (by decide)⟩

/-! ## Pipeline projections used by concrete claims -/

/-- Did the whole pipeline succeed? -/
def compileOk (s : String) : Bool :=
  match compile s with
  | .ok _ => true
  | _ => false

def pipelineIR (s : String) : Option (List String) :=
  match compile s with
  | .ok out => some out.ir
  | _ => none

def pipelineOptimizedIR (s : String) : Option (List String) :=
  match compile s with
  | .ok out => some out.optimizedIr
  | _ => none

def pipelineSymbolTable (s : String) : Option Scope :=
  match compile s with
  | .ok out => some out.symbolTable
  | _ => none

def pipelineAst (s : String) : Option ASTNode :=
  match compile s with
  | .ok out => some out.ast
  | _ => none

/-! ## Claim C1 — pipeline on `"let x = 2 + 3;"` -/

/-- **C1 (code bug).**  Running the embedded pipeline at the claimed
input: because the first `VariableDeclaration` case of the IR generator's
`switch` shadows the general one (dead code at source line 1584), the IR
for `"let x = 2 + 3;"` is `["x = new +()"]`, not
`["t0 = 2 + 3", "x = t0"]`, and the optimizer leaves it unchanged.
Moreover even on the claimed IR the optimizer keeps both the unfolded and
the folded binary line (the first optimizer block pushes without
`continue`), returning `["t0 = 2 + 3", "t0 = 5", "x = 5"]` rather than
`["t0 = 5", "x = 5"]`. -/
theorem claim_C1_bug :
    pipelineIR "let x = 2 + 3;" = some ["x = new +()"] ∧
    pipelineOptimizedIR "let x = 2 + 3;" = some ["x = new +()"] ∧
    optimize ["t0 = 2 + 3", "x = t0"] = .ok ["t0 = 2 + 3", "t0 = 5", "x = 5"] :=
  ⟨rfl, rfl, rfl⟩

/-! ## Claim C2 — block scoping in `semanticAnalysis` -/

/-- **C2 (code bug).**  Running the embedded `semanticAnalysis` at the
failing input `"{ let x = 1; } x;"`: the reachable `VariableDeclaration`
case writes `x` into the outermost `symbolTable` (the scope-aware
duplicate case at source line 1359 is dead), so the reference to `x`
after the block resolves and the whole pipeline succeeds — no
`SemanticError` is raised, and the declaration leaks out of its block. -/
theorem claim_C2_bug :
    compileOk "\x7b let x = 1; \x7d x;" = true ∧
    (pipelineSymbolTable "\x7b let x = 1; \x7d x;").map (fun m => jsMapHas m "x")
      = some true :=
  ⟨rfl, rfl⟩

/-! ## Claim C5 — IfStatement lowering -/

/-- One-step equation for the `IfStatement` branch of `generate`
(definitional). -/
lemma generate_if_eq (fuel : Nat) (v : Option String) (cond thn : ASTNode)
    (rest : List ASTNode) (t l : Nat) :
    generate (fuel + 1) (ASTNode.mk "IfStatement" v (cond :: thn :: rest)) t l
      = (match generate fuel cond t (l + 2) with
         | .error e => .error e
         | .ok (ccode, t1, l3, condRes) =>
           match (match generate fuel thn t1 l3 with
                  | .error e => (Except.error e : Except String (List String × Nat × Nat))
                  | .ok (tcode, t2, l4, _) => Except.ok (tcode, t2, l4)) with
           | .error e => .error e
           | .ok (tcode, t2, l4) =>
             .ok (ccode ++
               ["if " ++ jsTemplate condRes ++ " goto " ++ ("L" ++ natRepr l),
                "goto " ++ ("L" ++ natRepr (l + 1)), ("L" ++ natRepr l) ++ ":"] ++
               tcode ++ [("L" ++ natRepr (l + 1)) ++ ":"], t2, l4, some "")) := rfl

/-- **C5.**  For any `IfStatement` node with a condition and a then
branch, the IR generator allocates the two fresh labels `L⟨l⟩` and
`L⟨l+1⟩` (the condition is lowered with the label counter already
advanced past both) and emits, in exactly this order: the lowered
condition's instructions, `if <cond> goto Ltrue`, `goto Lend`, `Ltrue:`,
the then-branch instructions, `Lend:`.  Any further children — in
particular a parsed else branch (`rest`) — contribute nothing. -/
theorem claim_C5 (fuel : Nat) (v : Option String) (cond thn : ASTNode)
    (rest : List ASTNode)
    (t l : Nat) (ccode tcode : List String) (t1 l1 t2 l2 : Nat)
    (condRes thnRes : Option String)
    (hc : generate fuel cond t (l + 2) = .ok (ccode, t1, l1, condRes))
    (ht : generate fuel thn t1 l1 = .ok (tcode, t2, l2, thnRes)) :
    generate (fuel + 1) (ASTNode.mk "IfStatement" v (cond :: thn :: rest)) t l
      = .ok (ccode ++
          ["if " ++ jsTemplate condRes ++ " goto L" ++ natRepr l,
           "goto L" ++ natRepr (l + 1),
           "L" ++ natRepr l ++ ":"] ++ tcode ++ ["L" ++ natRepr (l + 1) ++ ":"],
          t2, l2, some "") := by
  rw [generate_if_eq, hc]
  simp [ht]
  constructor
  · rw [← String.append_assoc ("if " ++ jsTemplate condRes ++ " goto ") "L" (natRepr l),
        String.append_assoc ("if " ++ jsTemplate condRes) " goto " "L"]
    rfl
  · rw [← String.append_assoc "goto " "L" (natRepr (l + 1))]
    rfl

/-- **C5, witness.**  An `IfStatement` with condition `x`, an empty then
block and a non-empty else block: the else body emits nothing. -/
theorem claim_C5_witness :
    generate 3 (ASTNode.mk "IfStatement" none
      [ASTNode.mk "Identifier" (some "x") [],
       ASTNode.mk "Block" none [],
       ASTNode.mk "Block" none [ASTNode.mk "Identifier" (some "y") []]]) 0 0
      = .ok (["if x goto L0", "goto L1", "L0:", "L1:"], 0, 2, some "") :=
  claim_C5 2 none _ _ _ 0 0 [] [] 0 2 0 2 (some "x") (some "") rfl rfl

/-! ## Claim C6 — determinism and per-invocation counters -/

/-- **C6.**  The pipeline is a pure function of the source text: two
invocations that both succeed return identical token, AST, IR,
optimized-IR and target sequences (in the embedding the per-invocation
mutable context of the source — temp counter, label counter, scope stack,
substitution table — is allocated afresh inside each phase function, so
no state crosses invocations); and `generateIntermediateCode` always
starts its temp and label counters at 0. -/
theorem claim_C6 :
    (∀ s o1 o2, compile s = .ok o1 → compile s = .ok o2 →
      o1.tokens = o2.tokens ∧ o1.ast = o2.ast ∧ o1.ir = o2.ir ∧
      o1.optimizedIr = o2.optimizedIr ∧ o1.target = o2.target) ∧
    (∀ ast code t l r, generate (astFuel ast) ast 0 0 = .ok (code, t, l, r) →
      generateIntermediateCode ast = .ok code) := by
  constructor
  · intro s o1 o2 h1 h2
    rw [h1] at h2
    cases h2
    exact ⟨rfl, rfl, rfl, rfl, rfl⟩
  · intro ast code t l r h
    unfold generateIntermediateCode
    rw [h]

/-- **C6, witness.**  The counter-reset conjunct applied to a concrete
node. -/
theorem claim_C6_witness :
    generateIntermediateCode (ASTNode.mk "Identifier" (some "x") []) = .ok [] :=
  claim_C6.2 _ [] 0 0 (some "x") rfl

/-! ## Claim C4 — parser totality -/

/-- The token list of `"class A { 5 }"`. -/
def c4toks : List Token :=
  [{ type := "keyword", value := "class", line := 1, column := 1 },
   { type := "identifier", value := "A", line := 1, column := 7 },
   { type := "operator", value := "\x7b", line := 1, column := 9 },
   { type := "number", value := "5", line := 1, column := 11 },
   { type := "operator", value := "\x7d", line := 1, column := 13 }]

lemma except_bind_err {e' : Type} {a b : Type} (e : e') (f : a → Except e' b) :
    (Except.error e >>= f) = Except.error e := rfl

lemma except_bind_ok {e' : Type} {a b : Type} (x : a) (f : a → Except e' b) :
    (Except.ok x >>= f) = f x := rfl

/-- The modelled parser recursion bottoms out at no fuel: the source's
corresponding loop runs forever. -/
def parserLoopsForever (tokens : List Token) : Prop :=
  ∀ fuel, parseProgram tokens fuel 0 = .error .fuelOut

lemma c4_skipSemis : ∀ fuel, skipSemis c4toks fuel 3 = 3 := by
  intro fuel
  cases fuel with
  | zero => rfl
  | succ fuel => rfl

lemma c4_members : ∀ fuel acc, classMembersLoopStmt c4toks fuel 3 acc = .error .fuelOut := by
  have h3 : tok? c4toks 3 = some { type := "number", value := "5", line := 1, column := 11 } := rfl
  intro fuel
  induction fuel with
  | zero => intro acc; rfl
  | succ fuel ih =>
    intro acc
    simp [classMembersLoopStmt, h3, valIs, typeIs, c4_skipSemis, ih]

lemma c4_parseStatement : ∀ fuel, parseStatement c4toks fuel 0 = .error .fuelOut := by
  have h0 : mustTok c4toks 0 "type"
      = .ok { type := "keyword", value := "class", line := 1, column := 1 } := rfl
  have h1 : typeIs c4toks 1 "identifier" = true := rfl
  have h2 : valIs c4toks 2 "\x7b" = true := rfl
  intro fuel
  cases fuel with
  | zero => rfl
  | succ fuel =>
    simp [parseStatement, h0, h1, h2, c4_members, except_bind_err, except_bind_ok]

lemma c4_parseProgram : parserLoopsForever c4toks := by
  have hL : c4toks.length = 5 := rfl
  intro fuel
  cases fuel with
  | zero => rfl
  | succ fuel =>
    cases fuel with
    | zero => rfl
    | succ fuel =>
      simp [parseProgram, parseProgramLoop, hL, c4_parseStatement,
        except_bind_err, except_bind_ok]

/-- **C4, counterexample.**  The claim "for every finite token list,
syntaxAnalysis terminates with one Program or one syntax error" fails at
the token list of `"class A { 5 }"`: the class-member loop never consumes
the number token, so the parser recursion exhausts every fuel value —
the source loops forever — and the modelled `syntaxAnalysis` reports
divergence. -/
theorem claim_C4_counterexample :
    lexicalAnalysis "class A \x7b 5 \x7d" = .ok c4toks ∧
    parserLoopsForever c4toks ∧
    syntaxAnalysis c4toks = none := by
  refine ⟨rfl, c4_parseProgram, ?_⟩
  unfold syntaxAnalysis
  rw [c4_parseProgram (bigFuel c4toks)]
  rfl

/-- **C4, amended.**  Whenever the parser does terminate, it returns
exactly one `Program` node or throws exactly one syntax-phase
`CompilerError` — never both, never neither; but it does not terminate on
every token list: a class body whose next token is neither `;`,
`constructor`, an identifier nor `}` (e.g. the tokens of
`"class A { 5 }"`) spins the member loop forever. -/
theorem claim_C4_amended :
    (∀ toks fuel p c, parseProgram toks fuel 0 = .ok (p, c) → p.type = "Program") ∧
    (∀ toks r, syntaxAnalysis toks = some r →
      (∃ p, r = .ok p ∧ p.type = "Program") ∨
      (∃ e, r = .error e ∧ e.phase = "syntax")) ∧
    parserLoopsForever c4toks := by
  have hshape : ∀ toks fuel p c, parseProgram toks fuel 0 = .ok (p, c) → p.type = "Program" := by
    intro toks fuel p c h
    cases fuel with
    | zero => exact absurd h (by simp [parseProgram])
    | succ fuel =>
      cases hres : parseProgramLoop toks fuel 0 [] with
      | error e => simp [parseProgram, hres, except_bind_err, except_bind_ok] at h
      | ok r =>
        simp [parseProgram, hres, except_bind_err, except_bind_ok] at h
        rw [← h.1]
        rfl
  refine ⟨hshape, ?_, c4_parseProgram⟩
  intro toks r h
  unfold syntaxAnalysis at h
  by_cases hlen : toks.length = 0
  · rw [if_pos hlen] at h
    cases h
    exact Or.inr ⟨_, rfl, rfl⟩
  · rw [if_neg hlen] at h
    cases hp : parseProgram toks (bigFuel toks) 0 with
    | ok pr =>
      rw [hp] at h
      cases h
      exact Or.inl ⟨pr.1, rfl, hshape toks (bigFuel toks) pr.1 pr.2 (by rw [hp])⟩
    | error e =>
      cases e with
      | cerr m l c =>
        rw [hp] at h
        cases h
        exact Or.inr ⟨_, rfl, rfl⟩
      | typeError m =>
        rw [hp] at h
        cases h
        exact Or.inr ⟨_, rfl, rfl⟩
      | fuelOut =>
        rw [hp] at h
        cases h

/-- **C4, witness.**  The amended result-shape statement applied to the
empty token list (a syntax-phase error). -/
theorem claim_C4_amended_witness :
    (∃ p, (Except.error { message := "No tokens to parse", phase := "syntax" }
        : Except CompilerError ASTNode) = .ok p ∧ p.type = "Program") ∨
    (∃ e, (Except.error { message := "No tokens to parse", phase := "syntax" }
        : Except CompilerError ASTNode) = .error e ∧ e.phase = "syntax") :=
  claim_C4_amended.2.1 [] _ rfl

/-- A nonempty all-digit string: the shape of an integer number-token
value produced by the lexer. -/
def isNumericLit (s : String) : Bool :=
  s ≠ "" && s.data.all isDigitC

lemma numericLit_ne {s t : String} (h : isNumericLit s = true)
    (hf : isNumericLit t = false) : (s = t) = False := by
  simp only [eq_iff_iff, iff_false]
  intro he
  subst he
  rw [h] at hf
  cases hf

lemma opNe {op t : String} (h : isOperator op = true)
    (hf : isOperator t = false) : (op = t) = False := by
  simp only [eq_iff_iff, iff_false]
  intro he
  subst he
  rw [h] at hf
  cases hf

lemma valIs_false_of_ne {tokens : List Token} {i : Nat} {t : Token} {s : String}
    (ht : tok? tokens i = some t) (h : (t.value = s) = False) :
    valIs tokens i s = false := by
  simp [valIs, ht, h]

lemma valIs_false_of_none {tokens : List Token} {i : Nat} {s : String}
    (ht : tok? tokens i = none) : valIs tokens i s = false := by
  simp [valIs, ht]

lemma pp_num {tokens : List Token} {fuel cur : Nat} (g : Nat) {t : Token}
    (hf : fuel = g + 1) (ht : tok? tokens cur = some t)
    (hty : t.type = "number")
    (hB : (t.value = "\x7b") = False) (hS : (t.value = ";") = False) :
    parsePrimary tokens fuel cur
      = .ok (ASTNode.mk "NumberLiteral" (some t.value) [], cur + 1) := by
  subst hf
  simp [parsePrimary, mustTok, ht, hty, hB, hS, except_bind_ok, except_bind_err]

lemma pel_step {tokens : List Token} {fuel cur : Nat} {left : ASTNode} (g : Nat)
    (hf : fuel = g + 1) (hlt : cur < tokens.length)
    (hdot : valIs tokens cur "." = false) :
    parseExpLoop tokens fuel cur left = parseExpOpStep tokens g cur left := by
  subst hf
  simp [parseExpLoop, hlt, hdot]

lemma pel_done {tokens : List Token} {fuel cur : Nat} {left : ASTNode} (g : Nat)
    (hf : fuel = g + 1) (hge : ¬ cur < tokens.length) :
    parseExpLoop tokens fuel cur left = .ok (left, cur) := by
  subst hf
  simp [parseExpLoop, hge]

lemma pos_op {tokens : List Token} {fuel cur : Nat} {left : ASTNode} (g : Nat)
    {t : Token} {r : ASTNode} {c1 : Nat}
    (hf : fuel = g + 1) (ht : tok? tokens cur = some t)
    (hop : isOperator t.value = true)
    (hp : parsePrimary tokens g (cur + 1) = .ok (r, c1)) :
    parseExpOpStep tokens fuel cur left
      = parseExpLoop tokens g c1
          (ASTNode.mk "BinaryExpression" (some t.value) [left, r]) := by
  subst hf
  simp [parseExpOpStep, isOperatorOpt, tokValD, ht, hop, hp, except_bind_ok]

lemma pel2_done {tokens : List Token} {fuel cur : Nat} {left : ASTNode} (g : Nat)
    (hf : fuel = g + 1) (ht : tok? tokens cur = none) :
    parseExpLoop2 tokens fuel cur left = .ok (left, cur) := by
  subst hf
  simp [parseExpLoop2, ht]

lemma pe_eq {tokens : List Token} {fuel cur : Nat}
    {l1 l2 l3 : ASTNode} {c1 c2 c3 : Nat} (g : Nat)
    (hf : fuel = g + 1)
    (h1 : parsePrimary tokens g cur = .ok (l1, c1))
    (h2 : parseExpLoop tokens g c1 l1 = .ok (l2, c2))
    (h3 : parseExpLoop2 tokens g c2 l2 = .ok (l3, c3))
    (hdot : valIs tokens c3 "." = false) :
    parseExpression tokens fuel cur = .ok (l3, c3) := by
  subst hf
  simp [parseExpression, h1, h2, h3, hdot, except_bind_ok]

/-- **C7 (confirmed).**  The expression parser is left-associative with no
operator precedence.  General part: for any five-token sequence
`number op number op number` (with numeric literal values, so the
special-cased values `\x7b` and `;` cannot occur, and genuine operators,
so the member-access `.` path cannot trigger), `parseExpression` returns
`BinaryExpression(op2, [BinaryExpression(op1, [a, b]), c])` — operators
bound strictly in left-to-right token order.  Concrete part: the full
pipeline parses `2 + 3 * 4` as `(2 + 3) * 4`. -/
theorem claim_C7 :
    (∀ (t1 t2 t3 t4 t5 : Token) (f : Nat),
      t1.type = "number" → isNumericLit t1.value = true →
      isOperator t2.value = true →
      t3.type = "number" → isNumericLit t3.value = true →
      isOperator t4.value = true →
      t5.type = "number" → isNumericLit t5.value = true →
      parseExpression [t1, t2, t3, t4, t5] (f + 8) 0
        = .ok (ASTNode.mk "BinaryExpression" (some t4.value)
            [ASTNode.mk "BinaryExpression" (some t2.value)
              [ASTNode.mk "NumberLiteral" (some t1.value) [],
               ASTNode.mk "NumberLiteral" (some t3.value) []],
             ASTNode.mk "NumberLiteral" (some t5.value) []], 5)) ∧
    pipelineAst "2 + 3 * 4"
      = some (ASTNode.mk "Program" none
          [ASTNode.mk "BinaryExpression" (some "*")
            [ASTNode.mk "BinaryExpression" (some "+")
              [ASTNode.mk "NumberLiteral" (some "2") [],
               ASTNode.mk "NumberLiteral" (some "3") []],
             ASTNode.mk "NumberLiteral" (some "4") []]]) := by
  constructor
  · intro t1 t2 t3 t4 t5 f h1t h1n h2o h3t h3n h4o h5t h5n
    have h1B : (t1.value = "\x7b") = False := numericLit_ne h1n (by decide)
    have h1S : (t1.value = ";") = False := numericLit_ne h1n (by decide)
    have h3B : (t3.value = "\x7b") = False := numericLit_ne h3n (by decide)
    have h3S : (t3.value = ";") = False := numericLit_ne h3n (by decide)
    have h5B : (t5.value = "\x7b") = False := numericLit_ne h5n (by decide)
    have h5S : (t5.value = ";") = False := numericLit_ne h5n (by decide)
    have hv1 : valIs [t1, t2, t3, t4, t5] 1 "." = false :=
      valIs_false_of_ne rfl (opNe h2o (by decide))
    have hv3 : valIs [t1, t2, t3, t4, t5] 3 "." = false :=
      valIs_false_of_ne rfl (opNe h4o (by decide))
    have hv5 : valIs [t1, t2, t3, t4, t5] 5 "." = false :=
      valIs_false_of_none rfl
    have e1 : parsePrimary [t1, t2, t3, t4, t5] (f + 7) 0
        = .ok (ASTNode.mk "NumberLiteral" (some t1.value) [], 1) :=
      pp_num (f + 6) rfl rfl h1t h1B h1S
    have e3 : parsePrimary [t1, t2, t3, t4, t5] (f + 5) 2
        = .ok (ASTNode.mk "NumberLiteral" (some t3.value) [], 3) :=
      pp_num (f + 4) rfl rfl h3t h3B h3S
    have e5 : parsePrimary [t1, t2, t3, t4, t5] (f + 3) 4
        = .ok (ASTNode.mk "NumberLiteral" (some t5.value) [], 5) :=
      pp_num (f + 2) rfl rfl h5t h5B h5S
    have s1 : parseExpLoop [t1, t2, t3, t4, t5] (f + 7) 1
        (ASTNode.mk "NumberLiteral" (some t1.value) [])
        = parseExpOpStep [t1, t2, t3, t4, t5] (f + 6) 1
            (ASTNode.mk "NumberLiteral" (some t1.value) []) :=
      pel_step (f + 6) rfl (by simp) hv1
    have s2 : parseExpOpStep [t1, t2, t3, t4, t5] (f + 6) 1
        (ASTNode.mk "NumberLiteral" (some t1.value) [])
        = parseExpLoop [t1, t2, t3, t4, t5] (f + 5) 3
            (ASTNode.mk "BinaryExpression" (some t2.value)
              [ASTNode.mk "NumberLiteral" (some t1.value) [],
               ASTNode.mk "NumberLiteral" (some t3.value) []]) :=
      pos_op (f + 5) rfl rfl h2o e3
    have s3 : parseExpLoop [t1, t2, t3, t4, t5] (f + 5) 3
        (ASTNode.mk "BinaryExpression" (some t2.value)
          [ASTNode.mk "NumberLiteral" (some t1.value) [],
           ASTNode.mk "NumberLiteral" (some t3.value) []])
        = parseExpOpStep [t1, t2, t3, t4, t5] (f + 4) 3
            (ASTNode.mk "BinaryExpression" (some t2.value)
              [ASTNode.mk "NumberLiteral" (some t1.value) [],
               ASTNode.mk "NumberLiteral" (some t3.value) []]) :=
      pel_step (f + 4) rfl (by simp) hv3
    have s4 : parseExpOpStep [t1, t2, t3, t4, t5] (f + 4) 3
        (ASTNode.mk "BinaryExpression" (some t2.value)
          [ASTNode.mk "NumberLiteral" (some t1.value) [],
           ASTNode.mk "NumberLiteral" (some t3.value) []])
        = parseExpLoop [t1, t2, t3, t4, t5] (f + 3) 5
            (ASTNode.mk "BinaryExpression" (some t4.value)
              [ASTNode.mk "BinaryExpression" (some t2.value)
                [ASTNode.mk "NumberLiteral" (some t1.value) [],
                 ASTNode.mk "NumberLiteral" (some t3.value) []],
               ASTNode.mk "NumberLiteral" (some t5.value) []]) :=
      pos_op (f + 3) rfl rfl h4o e5
    have s5 : parseExpLoop [t1, t2, t3, t4, t5] (f + 3) 5
        (ASTNode.mk "BinaryExpression" (some t4.value)
          [ASTNode.mk "BinaryExpression" (some t2.value)
            [ASTNode.mk "NumberLiteral" (some t1.value) [],
             ASTNode.mk "NumberLiteral" (some t3.value) []],
           ASTNode.mk "NumberLiteral" (some t5.value) []])
        = .ok (ASTNode.mk "BinaryExpression" (some t4.value)
            [ASTNode.mk "BinaryExpression" (some t2.value)
              [ASTNode.mk "NumberLiteral" (some t1.value) [],
               ASTNode.mk "NumberLiteral" (some t3.value) []],
             ASTNode.mk "NumberLiteral" (some t5.value) []], 5) :=
      pel_done (f + 2) rfl (by simp)
    have eLoop := s1.trans (s2.trans (s3.trans (s4.trans s5)))
    have eLoop2 : parseExpLoop2 [t1, t2, t3, t4, t5] (f + 7) 5
        (ASTNode.mk "BinaryExpression" (some t4.value)
          [ASTNode.mk "BinaryExpression" (some t2.value)
            [ASTNode.mk "NumberLiteral" (some t1.value) [],
             ASTNode.mk "NumberLiteral" (some t3.value) []],
           ASTNode.mk "NumberLiteral" (some t5.value) []])
        = .ok (ASTNode.mk "BinaryExpression" (some t4.value)
            [ASTNode.mk "BinaryExpression" (some t2.value)
              [ASTNode.mk "NumberLiteral" (some t1.value) [],
               ASTNode.mk "NumberLiteral" (some t3.value) []],
             ASTNode.mk "NumberLiteral" (some t5.value) []], 5) :=
      pel2_done (f + 6) rfl rfl
    exact pe_eq (f + 7) rfl e1 eLoop eLoop2 hv5

  · rfl

/-- Witness for C7: the general conjunct instantiated at the token list of
`2 + 3 * 4`. -/
theorem claim_C7_witness :
    parseExpression
      [{ type := "number", value := "2", line := 1, column := 1 },
       { type := "operator", value := "+", line := 1, column := 3 },
       { type := "number", value := "3", line := 1, column := 5 },
       { type := "operator", value := "*", line := 1, column := 7 },
       { type := "number", value := "4", line := 1, column := 9 }] 8 0
      = .ok (ASTNode.mk "BinaryExpression" (some "*")
          [ASTNode.mk "BinaryExpression" (some "+")
            [ASTNode.mk "NumberLiteral" (some "2") [],
             ASTNode.mk "NumberLiteral" (some "3") []],
           ASTNode.mk "NumberLiteral" (some "4") []], 5) :=
  claim_C7.1 _ _ _ _ _ 0 rfl (by decide) (by decide) rfl (by decide)
    (by decide) rfl (by decide)

/-! ## C9 infrastructure: `split` on strings without stray separators -/

lemma isPrefixOf_cons_ne {c0 a : Char} {sep l : List Char} (h : ¬ a = c0) :
    (c0 :: sep).isPrefixOf (a :: l) = false := by
  simp [List.isPrefixOf]
  intro he
  exact absurd he.symm h

lemma splitOnCore_skip (c0 : Char) (sep : List Char) (hsep : sep.head? = some c0)
    (xs zs acc : List Char) (g : Nat)
    (hxs : ∀ c ∈ xs, ¬ c = c0) :
    splitOnCore sep (g + xs.length) (xs ++ zs) acc
      = splitOnCore sep g zs (acc ++ xs) := by
  obtain ⟨sep', rfl⟩ : ∃ s, sep = c0 :: s := by
    cases sep with
    | nil => cases hsep
    | cons a s => cases hsep; exact ⟨s, rfl⟩
  induction xs generalizing acc with
  | nil => simp
  | cons a xs ih =>
    have ha : ¬ a = c0 := hxs a (by simp)
    have hpre : (c0 :: sep').isPrefixOf (a :: (xs ++ zs)) = false :=
      isPrefixOf_cons_ne ha
    have e : g + (a :: xs).length = (g + xs.length) + 1 := rfl
    rw [e, List.cons_append]
    rw [splitOnCore]
    simp only [hpre, Bool.false_eq_true, if_false]
    rw [ih (acc ++ [a]) (fun c hc => hxs c (by simp [hc]))]
    simp

lemma splitOnCore_match {sep : List Char} (hne : sep ≠ []) (ys acc : List Char) (g : Nat) :
    splitOnCore sep (g + 1) (sep ++ ys) acc = acc :: splitOnCore sep g ys [] := by
  obtain ⟨c, sep', rfl⟩ : ∃ c s, sep = c :: s := by
    cases sep with
    | nil => exact absurd rfl hne
    | cons a s => exact ⟨a, s, rfl⟩
  have hpre : (c :: sep').isPrefixOf (c :: (sep' ++ ys)) = true := by
    rw [List.isPrefixOf_iff_prefix]
    exact ⟨ys, by simp⟩
  rw [List.cons_append, splitOnCore]
  simp only [hpre, if_true]
  have hdrop : (c :: (sep' ++ ys)).drop (c :: sep').length = ys := by
    rw [show c :: (sep' ++ ys) = (c :: sep') ++ ys from rfl, List.drop_left]
  rw [hdrop]

lemma splitOnCore_last (c0 : Char) (sep : List Char) (hsep : sep.head? = some c0)
    (zs acc : List Char) (g : Nat) (hzs : ∀ c ∈ zs, ¬ c = c0) :
    splitOnCore sep (g + zs.length + 1) zs acc = [acc ++ zs] := by
  have e : g + zs.length + 1 = (g + 1) + zs.length := by omega
  rw [e]
  have h2 := splitOnCore_skip c0 sep hsep zs [] acc (g + 1) hzs
  rw [List.append_nil] at h2
  rw [h2]
  rfl

lemma char_ne_of_digit {d c : Char} (hd : isDigitC d = true) (hc : isDigitC c = false) :
    ¬ d = c := by
  intro he
  subst he
  rw [hd] at hc
  cases hc

lemma sep_call_not_prefix_space_ds {ds : String}
    (hds : ∀ c ∈ ds.data, isDigitC c = true) :
    ([' ', '=', ' ', 'c', 'a', 'l', 'l', ' '] : List Char).isPrefixOf (' ' :: ds.data)
      = false := by
  cases hds' : ds.data with
  | nil => rfl
  | cons d rest =>
    have hne : ¬ d = '=' := by
      intro he
      subst he
      have := hds '=' (by rw [hds']; simp)
      exact absurd this (by decide)
    simp [List.isPrefixOf]
    intro he
    exact absurd he.symm hne

lemma jsSplit_call_line (dest name ds : String)
    (hd : ∀ c ∈ dest.data, ¬ c = ' ')
    (hn : ∀ c ∈ name.data, ¬ c = ' ')
    (hds : ∀ c ∈ ds.data, isDigitC c = true) :
    jsSplit (dest ++ " = call " ++ name ++ ", " ++ ds) " = call "
      = [dest, name ++ ", " ++ ds] := by
  have hdata : (dest ++ " = call " ++ name ++ ", " ++ ds).data
      = dest.data ++ ([' ', '=', ' ', 'c', 'a', 'l', 'l', ' ']
          ++ ((name.data ++ [',']) ++ (' ' :: ds.data))) := by
    simp [String.data_append]
  have htail : (name ++ ", " ++ ds).data
      = (name.data ++ [',']) ++ (' ' :: ds.data) := by
    simp [String.data_append]
  rw [jsSplit, hdata]
  have hlen : (dest.data ++ ([' ', '=', ' ', 'c', 'a', 'l', 'l', ' ']
      ++ ((name.data ++ [',']) ++ (' ' :: ds.data)))).length + 1
      = (name.data.length + ds.data.length + 11) + dest.data.length := by
    simp
    omega
  rw [hlen]
  rw [splitOnCore_skip ' ' [' ', '=', ' ', 'c', 'a', 'l', 'l', ' '] rfl dest.data _ [] _ hd]
  have e1 : name.data.length + ds.data.length + 11
      = (name.data.length + ds.data.length + 10) + 1 := by omega
  rw [e1, splitOnCore_match (by simp) _ _ _]
  have e2 : name.data.length + ds.data.length + 10
      = (ds.data.length + 9) + (name.data ++ [',']).length := by
    simp
    omega
  rw [e2]
  rw [splitOnCore_skip ' ' [' ', '=', ' ', 'c', 'a', 'l', 'l', ' '] rfl
    (name.data ++ [',']) _ [] _ ?hcomma]
  case hcomma =>
    intro c hc
    rcases List.mem_append.mp hc with h | h
    · exact hn c h
    · simp at h
      subst h
      decide
  have e3 : ds.data.length + 9 = (ds.data.length + 8) + 1 := by omega
  rw [e3, splitOnCore]
  rw [sep_call_not_prefix_space_ds hds]
  simp only [Bool.false_eq_true, if_false]
  have e4 : ds.data.length + 8 = 7 + ds.data.length + 1 := by omega
  rw [e4, splitOnCore_last ' ' [' ', '=', ' ', 'c', 'a', 'l', 'l', ' '] rfl ds.data _ 7 ?hdsne]
  case hdsne =>
    intro c hc
    exact char_ne_of_digit (hds c hc) (by decide)
  have h2 : String.mk (((name.data ++ [',']) ++ [' ']) ++ ds.data)
      = name ++ ", " ++ ds := by
    have he : ((name.data ++ [',']) ++ [' ']) ++ ds.data
        = (name ++ ", " ++ ds).data := by
      rw [htail]
      simp
    rw [he]
  simp only [List.nil_append, List.map_cons, List.map_nil, h2]

lemma jsSplit_callInfo (name ds : String)
    (hn : ∀ c ∈ name.data, ¬ c = ',')
    (hds : ∀ c ∈ ds.data, isDigitC c = true) :
    jsSplit (name ++ ", " ++ ds) ", " = [name, ds] := by
  have hdata : (name ++ ", " ++ ds).data
      = name.data ++ ([',', ' '] ++ ds.data) := by
    simp [String.data_append]
  rw [jsSplit, hdata]
  have hlen : (name.data ++ ([',', ' '] ++ ds.data)).length + 1
      = (ds.data.length + 3) + name.data.length := by
    simp
    omega
  rw [hlen]
  rw [splitOnCore_skip ',' [',', ' '] rfl name.data _ [] _ hn]
  have e1 : ds.data.length + 3 = (ds.data.length + 2) + 1 := by omega
  rw [e1, splitOnCore_match (by simp) _ _ _]
  have e2 : ds.data.length + 2 = 1 + ds.data.length + 1 := by omega
  rw [e2, splitOnCore_last ',' [',', ' '] rfl ds.data _ 1 ?hdsne]
  case hdsne =>
    intro c hc
    exact char_ne_of_digit (hds c hc) (by decide)
  simp only [List.nil_append, List.map_cons, List.map_nil]

lemma jsStartsWith_false_mono {s p q : String}
    (hpq : p.data <+: q.data) (h : jsStartsWith s p = false) :
    jsStartsWith s q = false := by
  rw [jsStartsWith] at h ⊢
  rw [Bool.eq_false_iff] at h ⊢
  intro hq
  apply h
  rw [List.isPrefixOf_iff_prefix] at hq ⊢
  exact hpq.trans hq

lemma listInfix_append_right (pat xs zs : List Char) (h : listInfix pat zs = true) :
    listInfix pat (xs ++ zs) = true := by
  induction xs with
  | nil => simpa
  | cons a xs ih => simp [listInfix, ih]

lemma jsIncludes_call (dest name ds : String) :
    jsIncludes (dest ++ " = call " ++ name ++ ", " ++ ds) "call" = true := by
  rw [jsIncludes]
  have hpat : ("call" : String).data = ['c', 'a', 'l', 'l'] := rfl
  have hdata : (dest ++ " = call " ++ name ++ ", " ++ ds).data
      = dest.data ++ ([' ', '=', ' ', 'c', 'a', 'l', 'l', ' ']
          ++ ((name.data ++ [',']) ++ (' ' :: ds.data))) := by
    simp [String.data_append]
  rw [hpat, hdata]
  apply listInfix_append_right
  simp [listInfix, List.isPrefixOf]

lemma jsParseInt_digits (ds : String) (hne : ds.data ≠ [])
    (hds : ∀ c ∈ ds.data, isDigitC c = true) :
    jsParseInt ds = some (digitsVal ds.data) := by
  have ht : ds.data.takeWhile isDigitC = ds.data := List.takeWhile_eq_self_iff.mpr hds
  simp [jsParseInt, ht, hne]

lemma targetStep_call (dest name ds : String) (st : TgtState)
    (h1 : jsStartsWith (dest ++ " = call " ++ name ++ ", " ++ ds) "class" = false)
    (h2 : jsStartsWith (dest ++ " = call " ++ name ++ ", " ++ ds) "function" = false)
    (h3 : jsIncludes (dest ++ " = call " ++ name ++ ", " ++ ds) "this.value" = false)
    (h4 : jsStartsWith (dest ++ " = call " ++ name ++ ", " ++ ds) "return" = false)
    (hd : ∀ c ∈ dest.data, ¬ c = ' ')
    (hn : ∀ c ∈ name.data, ¬ c = ' ')
    (hnc : ∀ c ∈ name.data, ¬ c = ',')
    (hne : ds.data ≠ [])
    (hds : ∀ c ∈ ds.data, isDigitC c = true) :
    targetStep st (dest ++ " = call " ++ name ++ ", " ++ ds)
      = if digitsVal ds.data > 0 then
          .ok { st with targetCode := st.targetCode ++
            ["  call " ++ name, "  mov " ++ dest ++ ", rax",
             "  add rsp, " ++ natRepr (digitsVal ds.data * 8)] }
        else
          .ok { st with targetCode := st.targetCode ++
            ["  call " ++ name, "  mov " ++ dest ++ ", rax"] } := by
  have hfn2 : jsStartsWith (dest ++ " = call " ++ name ++ ", " ++ ds) "function " = false :=
    jsStartsWith_false_mono (by decide) h2
  have hcall := jsIncludes_call dest name ds
  have hsplit := jsSplit_call_line dest name ds hd hn hds
  have hsplit2 := jsSplit_callInfo name ds hnc hds
  have hparse := jsParseInt_digits ds hne hds
  rw [targetStep]
  simp only [h1, h2, h3, h4, hfn2, hcall, hsplit, hsplit2, hparse,
    Bool.false_eq_true, if_false, if_true, jsTemplate]
  by_cases hk : digitsVal ds.data > 0
  · simp [hsplit2, hparse, hk]
  · simp [hsplit2, hparse, hk]

/-- **C9 (confirmed).**  For an optimized-IR line `dest = call name, ds`
(`dest` and `name` space-free, `name` comma-free, `ds` a nonempty digit
string, and the line not captured by the earlier `class` / `function` /
`this.value` / `return` branches), the code generator emits exactly
`call name`, then `mov dest, rax`, then — exactly when the argument count
is positive — `add rsp, count * 8`, and nothing else for that line: the
first conjunct shows this for one loop step from an arbitrary prior
state, the second for `generateTargetCode` on the single-line program. -/
theorem claim_C9 :
    (∀ (dest name ds : String) (st : TgtState),
      jsStartsWith (dest ++ " = call " ++ name ++ ", " ++ ds) "class" = false →
      jsStartsWith (dest ++ " = call " ++ name ++ ", " ++ ds) "function" = false →
      jsIncludes (dest ++ " = call " ++ name ++ ", " ++ ds) "this.value" = false →
      jsStartsWith (dest ++ " = call " ++ name ++ ", " ++ ds) "return" = false →
      (∀ c ∈ dest.data, ¬ c = ' ') →
      (∀ c ∈ name.data, ¬ c = ' ') →
      (∀ c ∈ name.data, ¬ c = ',') →
      ds.data ≠ [] →
      (∀ c ∈ ds.data, isDigitC c = true) →
      targetStep st (dest ++ " = call " ++ name ++ ", " ++ ds)
        = if digitsVal ds.data > 0 then
            .ok { st with targetCode := st.targetCode ++
              ["  call " ++ name, "  mov " ++ dest ++ ", rax",
               "  add rsp, " ++ natRepr (digitsVal ds.data * 8)] }
          else
            .ok { st with targetCode := st.targetCode ++
              ["  call " ++ name, "  mov " ++ dest ++ ", rax"] }) ∧
    (∀ (dest name ds : String),
      jsStartsWith (dest ++ " = call " ++ name ++ ", " ++ ds) "class" = false →
      jsStartsWith (dest ++ " = call " ++ name ++ ", " ++ ds) "function" = false →
      jsIncludes (dest ++ " = call " ++ name ++ ", " ++ ds) "this.value" = false →
      jsStartsWith (dest ++ " = call " ++ name ++ ", " ++ ds) "return" = false →
      (∀ c ∈ dest.data, ¬ c = ' ') →
      (∀ c ∈ name.data, ¬ c = ' ') →
      (∀ c ∈ name.data, ¬ c = ',') →
      ds.data ≠ [] →
      (∀ c ∈ ds.data, isDigitC c = true) →
      generateTargetCode [dest ++ " = call " ++ name ++ ", " ++ ds]
        = if digitsVal ds.data > 0 then
            .ok ["  call " ++ name, "  mov " ++ dest ++ ", rax",
                 "  add rsp, " ++ natRepr (digitsVal ds.data * 8)]
          else
            .ok ["  call " ++ name, "  mov " ++ dest ++ ", rax"]) := by
  constructor
  · intro dest name ds st h1 h2 h3 h4 hd hn hnc hne hds
    exact targetStep_call dest name ds st h1 h2 h3 h4 hd hn hnc hne hds
  · intro dest name ds h1 h2 h3 h4 hd hn hnc hne hds
    have hstep := targetStep_call dest name ds
      { targetCode := [], currentFunction := none, currentClass := none }
      h1 h2 h3 h4 hd hn hnc hne hds
    by_cases hk : digitsVal ds.data > 0
    · rw [if_pos hk] at hstep
      simp [generateTargetCode, targetLoop, hstep, hk]
    · rw [if_neg hk] at hstep
      simp [generateTargetCode, targetLoop, hstep, hk]

/-- Witness for C9: both conjuncts at the line `t0 = call foo, 2`. -/
theorem claim_C9_witness :
    targetStep { targetCode := [], currentFunction := none, currentClass := none }
        ("t0" ++ " = call " ++ "foo" ++ ", " ++ "2")
      = .ok { targetCode := ["  call foo", "  mov t0, rax", "  add rsp, 16"],
              currentFunction := none, currentClass := none } :=
  (claim_C9.1 "t0" "foo" "2"
    { targetCode := [], currentFunction := none, currentClass := none }
    (by decide) (by decide) (by decide) (by decide) (by decide)
    (by decide) (by decide) (by decide) (by decide)).trans (by rfl)

/-- A character over which the lexer's scan loop emits no token: either
whitespace (discarded) or a character matching none of the lexer's
classes, which the final `else` silently skips (source line 1247). -/
def skipChar (c : Char) : Bool :=
  isWSChar c ||
    (!isAlphaU c && !isDigitC c && !(c = '"' || c = Char.ofNat 39)
      && !opChars.contains c)

lemma lexRun_skips (fuel : Nat) (cs : List Char) (line col : Nat)
    (h : ∀ c ∈ cs, skipChar c = true) : lexRun fuel cs line col = [] := by
  induction fuel generalizing cs line col with
  | zero => rfl
  | succ fuel ih =>
    cases cs with
    | nil => rfl
    | cons c rest =>
      have hc := h c (by simp)
      have hrest : ∀ x ∈ rest, skipChar x = true := fun x hx => h x (by simp [hx])
      by_cases hws : isWSChar c
      · by_cases hnl : c = '\n'
        · subst hnl
          simp [lexRun, isWSChar, ih rest _ _ hrest]
        · simp [lexRun, hws, hnl, ih rest _ _ hrest]
      · rw [skipChar] at hc
        have hwsf : isWSChar c = false := by
          cases hv : isWSChar c
          · rfl
          · exact absurd hv hws
        rw [hwsf, Bool.false_or] at hc
        simp only [Bool.and_eq_true, Bool.not_eq_true'] at hc
        obtain ⟨⟨⟨ha, hd⟩, hq⟩, hop⟩ := hc
        have hmem : ¬ c ∈ opChars := by
          intro hm
          have hcon : opChars.contains c = true := by simpa using hm
          rw [hop] at hcon
          cases hcon
        simp [lexRun, hws, ha, hd, hq, hop, hmem, ih rest _ _ hrest]

/-- **C10 (confirmed).**  `syntaxAnalysis` on the empty token list throws
the syntax-phase error `"No tokens to parse"`; consequently any non-empty
source whose characters are all whitespace or lexer-unrecognized (and
whose trim is non-empty, so validation passes) lexes to zero tokens and
the pipeline stops with that syntax error rather than a validation or
lexical one — in particular `"@ # $"` does. -/
theorem claim_C10 :
    syntaxAnalysis []
      = some (.error { message := "No tokens to parse", phase := "syntax" }) ∧
    (∀ s : String, jsTrim s ≠ "" → (∀ c ∈ s.data, skipChar c = true) →
      lexicalAnalysis s = .ok [] ∧
      compile s = .compilerError { message := "No tokens to parse", phase := "syntax" }) ∧
    lexicalAnalysis "@ # $" = .ok [] ∧
    compile "@ # $"
      = .compilerError { message := "No tokens to parse", phase := "syntax" } := by
  refine ⟨rfl, ?_, rfl, rfl⟩
  intro s htrim hs
  have hlex : lexicalAnalysis s = .ok [] := by
    unfold lexicalAnalysis validateInput
    rw [if_neg htrim]
    rw [lexRun_skips _ _ _ _ hs]
  refine ⟨hlex, ?_⟩
  rw [compile, hlex]
  rfl

/-- Witness for C10: the general conjunct at the source `"@ # $"`. -/
theorem claim_C10_witness :
    lexicalAnalysis "@ # $" = .ok [] ∧
    compile "@ # $"
      = .compilerError { message := "No tokens to parse", phase := "syntax" } :=
  claim_C10.2.1 "@ # $" (by decide) (by decide)
